import Mathlib

/-!
DataMind dashboard: brush selection hub, chart widget and drill-down navigator.

A shallow embedding of the client-side state logic of the dashboard:

* `components/charts/ChartBrushManager.jsx`  (the selection hub),
* `components/charts/InteractiveChart.jsx`   (cross-filtering and brushing),
* `components/dashboard/DrillDownModal.jsx`  (the drill-down navigator),
* `components/dashboard/DraggableGrid.jsx`   (reordering by drag and drop),
* `components/dashboard/DashboardExport.jsx` and `pages/Dashboard.jsx`
  (importing a configuration),
* `components/dashboard/TemplateLibrary.jsx` (sharing a template).

React state is made explicit: every handler is a function from the state it
closes over to the state that the next render sees.  JavaScript values that
may be `undefined` or `null` are `Option`s, and a handler that can raise a
`TypeError` returns in `Except JsError`.
-/

namespace DataMind

/-! ## JavaScript values -/

/-- Scalar cell of a data row: a string, a number, a boolean or `null`.
Numbers are integers; the model speaks for the safe integers (see
`safeInteger`), which a JavaScript number holds exactly and `String(n)`
prints as their decimal numeral.  Fractions are not in the model. -/
inductive Val where
  | str (s : String)
  | num (n : Int)
  | bool (b : Bool)
  | null
  deriving DecidableEq, Repr

/-- A row is a plain object, kept as its list of own properties; the first
binding of a key is the property. -/
abbrev Row := List (String × Val)

/-- Own-property read: the value of `item[key]` when the row has an own
property `key`, and `none` when it has none.  When the row has no such
property and `key` names a member of `Object.prototype`, the code reads that
member, a function or an object: it is never `===` to a scalar, as
`undefined` is not, and where its truthiness and string form matter
(`aggregateStep`) it is read there. -/
def getProp (item : Row) (key : String) : Option Val :=
  List.lookup key item

/-- The own keys read by `Object.keys(o)`. -/
def objectKeys (o : Row) : List String :=
  (o.map Prod.fst).dedup

/-- Strict equality `a === b` on scalar values (`undefined` included). -/
def strictEq (a b : Option Val) : Bool :=
  decide (a = b)

/-- Truthiness of a value in a condition: the empty string, `0`, `false`,
`null` and `undefined` are falsy. -/
def truthy : Option Val → Bool
  | some (Val.str s) => decide (s ≠ "")
  | some (Val.num n) => decide (n ≠ 0)
  | some (Val.bool b) => b
  | some Val.null => false
  | none => false

/-- The operator `a || b`. -/
def jsOr (a b : Option Val) : Option Val :=
  if truthy a then a else b

/-- The conversion `String(v)` applied to a property key.  For a number it is
the decimal numeral, which is what `String(n)` gives for a safe integer. -/
def toPropertyKey : Val → String
  | Val.str s => s
  | Val.num n => toString n
  | Val.bool true => "true"
  | Val.bool false => "false"
  | Val.null => "null"

/-- The integers a JavaScript number holds exactly and prints in decimal:
those of magnitude below `2^53`. -/
def safeInteger (n : Int) : Bool :=
  decide (-9007199254740992 < n ∧ n < 9007199254740992)

/-- Error raised by reading a property of `undefined`. -/
inductive JsError where
  | typeError
  deriving DecidableEq, Repr

/-! ## ChartBrushManager.jsx: the selection hub -/

/-- State held by `ChartBrushProvider`. -/
structure BrushHub where
  selectedData : Option (List Row)
  activeChartId : Option String
  deriving DecidableEq, Repr

/-- Initial state: `useState(null)` twice. -/
def initialHub : BrushHub :=
  { selectedData := none, activeChartId := none }

/-- Handler `onBrushSelect(chartId, data)`. -/
def onBrushSelect (_hub : BrushHub) (chartId : String) (data : List Row) : BrushHub :=
  { selectedData := some data, activeChartId := some chartId }

/-- Handler `clearBrush()`. -/
def clearBrush (_hub : BrushHub) : BrushHub :=
  { selectedData := none, activeChartId := none }

/-! ## InteractiveChart.jsx: the chart widget -/

/-- Payload of `series[i].data`: what the configuration came with, or the
rows written by the cross-filter. -/
inductive SeriesData (δ : Type) where
  | given (d : δ)
  | rows (rs : List Row)
  deriving DecidableEq, Repr

/-- One entry of `chartConfig.series`: its `data` and all its other fields. -/
structure Series (δ σ : Type) where
  data : SeriesData δ
  others : σ
  deriving DecidableEq, Repr

/-- The chart configuration: its optional `series` and all its other fields. -/
structure ChartConfig (δ σ ρ : Type) where
  series : Option (List (Series δ σ))
  others : ρ
  deriving DecidableEq, Repr

/-- Flag `isThisChartActive = activeChartId === chartId`. -/
def isThisChartActive (hub : BrushHub) (chartId : String) : Bool :=
  decide (hub.activeChartId = some chartId)

/-- Flag `hasSelection = selectedData && !isThisChartActive`. -/
def hasSelection (hub : BrushHub) (chartId : String) : Bool :=
  hub.selectedData.isSome && !isThisChartActive hub chartId

/-- Inner test of the cross-filter:
`Object.keys(selected).every(key => item[key] === selected[key])`. -/
def rowMatches (item selected : Row) : Bool :=
  (objectKeys selected).all (fun key => strictEq (getProp item key) (getProp selected key))

/-- Cross-filter `data.filter(item => selectedData.some(selected => ...))`. -/
def crossFilter (data selectedData : List Row) : List Row :=
  data.filter (fun item => selectedData.any (fun selected => rowMatches item selected))

/-- Memo `filteredChartConfig`. -/
def filteredChartConfig {δ σ ρ : Type} (hub : BrushHub) (chartId : String)
    (data : Option (List Row)) (chartConfig : ChartConfig δ σ ρ) : ChartConfig δ σ ρ :=
  match hasSelection hub chartId, hub.selectedData, data with
  | true, some selectedData, some data =>
    let filtered := crossFilter data selectedData
    { chartConfig with
      series := chartConfig.series.map (fun series =>
        series.map (fun s =>
          { s with data := SeriesData.rows (if filtered.length > 0 then filtered else data) })) }
  | _, _, _ => chartConfig

/-- One brushed area of a `brushEnd` event, with its optional
`coordRange = [xStart, xEnd]`. -/
structure BrushArea where
  coordRange : Option (Int × Int)
  deriving DecidableEq, Repr

/-- Parameters of the `brushEnd` event. -/
structure BrushParams where
  areas : Option (List BrushArea)
  deriving DecidableEq, Repr

/-- The loop `data.forEach((item, index) => ...)` of `handleBrushEnd`, pushing
every item whose index lies in the range. -/
def collectSelected (data : List Row) (xStart xEnd : Int) : List Row :=
  data.enum.foldl
    (fun selected p =>
      if (p.1 : Int) ≥ xStart ∧ (p.1 : Int) ≤ xEnd then selected ++ [p.2] else selected)
    []

/-- The list `selected` that `handleBrushEnd` builds for an area. -/
def brushSelected (data : Option (List Row)) (brushArea : BrushArea) : List Row :=
  match data, brushArea.coordRange with
  | some data, some (xStart, xEnd) => collectSelected data xStart xEnd
  | _, _ => []

/-- Handler `handleBrushEnd(params)`. -/
def handleBrushEnd (hub : BrushHub) (chartId : String) (data : Option (List Row))
    (params : BrushParams) : BrushHub :=
  match params.areas with
  | none => if isThisChartActive hub chartId then clearBrush hub else hub
  | some [] => if isThisChartActive hub chartId then clearBrush hub else hub
  | some (brushArea :: _) =>
    let selected := brushSelected data brushArea
    if selected.length > 0 then onBrushSelect hub chartId selected else hub

/-! ## DrillDownModal.jsx: the drill-down navigator -/

/-- One configured drill level `{ field, label, chartType }`. -/
structure DrillLevel where
  field : String
  label : String
  chartType : String
  deriving DecidableEq, Repr

/-- Value stored under a key of the `aggregated` object: a running count, or
the non-numeric string that `+ 1` makes of an inherited member. -/
inductive AggVal where
  | count (n : Nat)
  | text
  deriving DecidableEq, Repr

/-- Member names that the literal `{}` inherits from `Object.prototype`; a
read of one of them on `aggregated` is truthy before any row is counted. -/
def objectPrototypeKeys : List String :=
  ["constructor", "hasOwnProperty", "isPrototypeOf", "propertyIsEnumerable",
   "toLocaleString", "toString", "valueOf", "__defineGetter__", "__defineSetter__",
   "__lookupGetter__", "__lookupSetter__", "__proto__"]

/-- The string form of the member of `Object.prototype` called `name`, as
V8 prints it: `__proto__` reads the prototype object itself, `constructor`
the function `Object`, every other name a native function of that name. -/
def inheritedMemberText (name : String) : String :=
  if name = "__proto__" then "[object Object]"
  else if name = "constructor" then "function Object() \x7b [native code] \x7d"
  else "function " ++ name ++ "() \x7b [native code] \x7d"

/-- Assignment to an own property `o[k] = v`: an existing property keeps its
place, a new one is created last. -/
def setOwn (o : List (String × AggVal)) (k : String) (v : AggVal) : List (String × AggVal) :=
  if (o.lookup k).isSome then o.map (fun p => if p.1 = k then (k, v) else p)
  else o ++ [(k, v)]

/-- Statement `aggregated[key] = (aggregated[key] || 0) + 1`.  An own count
is incremented; a string stays a string; a fresh key starts at `1`, unless it
names an inherited member: then the sum is a string, and the assignment to
`__proto__` creates no property at all. -/
def bump (aggregated : List (String × AggVal)) (key : String) : List (String × AggVal) :=
  match aggregated.lookup key with
  | some (AggVal.count n) => setOwn aggregated key (AggVal.count (n + 1))
  | some AggVal.text => setOwn aggregated key AggVal.text
  | none =>
    if key = "__proto__" then aggregated
    else if key ∈ objectPrototypeKeys then aggregated ++ [(key, AggVal.text)]
    else aggregated ++ [(key, AggVal.count 1)]

/-- Body of `data.forEach(item => ...)` in `generateDrillChart`.  The read
`item[path.field]` gives the own property, or, for a row without it, the
member of `Object.prototype` of that name, which is truthy and is counted
under its string form, or `undefined`. -/
def aggregateStep (field : String) (aggregated : List (String × AggVal)) (item : Row) :
    List (String × AggVal) :=
  match getProp item field with
  | some key => if truthy (some key) then bump aggregated (toPropertyKey key) else aggregated
  | none =>
    if field ∈ objectPrototypeKeys then bump aggregated (inheritedMemberText field)
    else aggregated

/-- Numeric value of a string of decimal digits. -/
def indexValue (k : String) : Nat :=
  k.data.foldl (fun n c => 10 * n + (c.toNat - 48)) 0

/-- Test for an array index: a canonical decimal numeral below `2^32 - 1`. -/
def isArrayIndex (k : String) : Bool :=
  !k.data.isEmpty && k.data.all Char.isDigit
    && (k.data.length == 1 || k.data.head? != some '0')
    && decide (indexValue k < 4294967295)

/-- The call `Object.entries(o)`: array-index keys first, in ascending numeric
order, then the other keys in creation order. -/
def objectEntries (o : List (String × AggVal)) : List (String × AggVal) :=
  (o.filter (fun p => isArrayIndex p.1)).insertionSort
      (fun a b => indexValue a.1 ≤ indexValue b.1)
    ++ o.filter (fun p => !isArrayIndex p.1)

/-- The `chartData` of `generateDrillChart`, as `(name, value)` pairs. -/
def chartData (data : List Row) (field : String) : List (String × AggVal) :=
  objectEntries (data.foldl (aggregateStep field) [])

/-- The ECharts option returned by `generateDrillChart`.  The parts that are
the same in every result (tooltip, legend, grid, pie radius and emphasis, the
value axis) carry no input and are not recorded. -/
inductive DrillChart where
  | pie (data : List (String × AggVal))
  | cartesian (seriesType : String) (xAxisData : List String) (seriesData : List AggVal)
      (colorStops : List (Nat × String))
  deriving DecidableEq, Repr

/-- Function `generateDrillChart(data, path)`; `none` is the returned `null`. -/
def generateDrillChart (data : Option (List Row)) (path : Option DrillLevel) :
    Except JsError (Option DrillChart) :=
  match data with
  | none => Except.ok none
  | some [] => Except.ok none
  | some (d :: ds) =>
    match path with
    | none => Except.error JsError.typeError
    | some path =>
      if path.field = "" then Except.ok none
      else
        let chartData := chartData (d :: ds) path.field
        if path.chartType = "pie" then Except.ok (some (DrillChart.pie chartData))
        else
          Except.ok (some (DrillChart.cartesian
            (if path.chartType = "" then "bar" else path.chartType)
            (chartData.map (fun d => d.1))
            (chartData.map (fun d => d.2))
            [(0, "#667eea"), (1, "#764ba2")]))

/-- The event objects the modal handles: the ECharts click `params`, and the
same object spread with `drillPath`, `sourceData` or `chartConfig`.  Only the
properties the code reads are kept; `dataName` is `params.data?.name`. -/
structure Params where
  name : Option Val
  dataName : Option Val
  chartConfig : Option DrillChart
  drillPath : Option (List DrillLevel)
  sourceData : Option (List Row)
  deriving DecidableEq, Repr

/-- The `filter` recorded in a frame. -/
structure DrillFilter where
  field : String
  value : Option Val
  deriving DecidableEq, Repr

/-- One entry of `drillStack`. -/
structure Frame where
  level : Nat
  data : Params
  path : Option DrillLevel
  filter : Option DrillFilter
  deriving DecidableEq, Repr

/-- The two state cells of `DrillDownModal`. -/
structure NavState where
  drillStack : List Frame
  currentLevel : Nat
  deriving DecidableEq, Repr

/-- State before the first effect: `useState([])` and `useState(0)`. -/
def initialNav : NavState :=
  { drillStack := [], currentLevel := 0 }

/-- The effect on `[drillData, isOpen]`, which opens a drill session. -/
def openEffect (drillData : Option Params) (isOpen : Bool) (s : NavState) : NavState :=
  match drillData, isOpen with
  | some drillData, true =>
    { drillStack :=
        [{ level := 0, data := drillData,
           path := drillData.drillPath.bind (fun p => p[0]?), filter := none }],
      currentLevel := 0 }
  | _, _ => s

/-- Value `currentDrill = drillStack[currentLevel]`. -/
def currentDrill (s : NavState) : Option Frame :=
  s.drillStack[s.currentLevel]?

/-- Flag `hasPath = drillData.drillPath && drillData.drillPath.length > 0`. -/
def hasPath (drillData : Params) : Bool :=
  match drillData.drillPath with
  | some p => decide (p.length > 0)
  | none => false

/-- Flag `canDrillDeeper = hasPath && currentLevel < drillPath.length - 1`
(the comparison `currentLevel < n - 1` on numbers is `currentLevel + 1 < n`). -/
def canDrillDeeper (drillData : Params) (s : NavState) : Bool :=
  hasPath drillData &&
    (match drillData.drillPath with
     | some p => decide (s.currentLevel + 1 < p.length)
     | none => false)

/-- The rows kept by `drillData.sourceData.filter(item => item[field] === clickedValue)`. -/
def filterSource (sourceData : List Row) (field : String) (clickedValue : Option Val) :
    List Row :=
  sourceData.filter (fun item => strictEq (getProp item field) clickedValue)

/-- Handler `handleDrillDown(params)`.  Reading `currentDrill.path.field` of a
missing frame or of a frame without path raises before any state is set. -/
def handleDrillDown (drillData : Params) (s : NavState) (params : Params) :
    Except JsError NavState :=
  if !canDrillDeeper drillData s then Except.ok s
  else
    match drillData.sourceData with
    | none => Except.ok s
    | some sourceData =>
      let nextPath := drillData.drillPath.bind (fun p => p[s.currentLevel + 1]?)
      let clickedValue := jsOr params.name params.dataName
      match (currentDrill s).bind (fun f => f.path) with
      | none => Except.error JsError.typeError
      | some path =>
        let filteredData := filterSource sourceData path.field clickedValue
        match generateDrillChart (some filteredData) nextPath with
        | Except.error e => Except.error e
        | Except.ok nextLevelData =>
          Except.ok
            { drillStack := s.drillStack ++
                [{ level := s.currentLevel + 1,
                   data := { params with chartConfig := nextLevelData },
                   path := nextPath,
                   filter := some { field := path.field, value := clickedValue } }],
              currentLevel := s.currentLevel + 1 }

/-- Handler `handleBack()`. -/
def handleBack (s : NavState) : NavState :=
  if s.currentLevel > 0 then
    { currentLevel := s.currentLevel - 1, drillStack := s.drillStack.dropLast }
  else s

/-- The `onClick` of the breadcrumb badge with index `idx`. -/
def breadcrumbClick (s : NavState) (idx : Nat) : NavState :=
  if idx < s.currentLevel then
    { currentLevel := idx, drillStack := s.drillStack.take (idx + 1) }
  else s

/-- Value `displayChart`:
`currentDrill?.data?.chartConfig || (currentDrill?.data && generateDrillChart(...))`. -/
def displayChart (drillData : Params) (s : NavState) : Except JsError (Option DrillChart) :=
  match currentDrill s with
  | none => Except.ok none
  | some frame =>
    match frame.data.chartConfig with
    | some config => Except.ok (some config)
    | none => generateDrillChart drillData.sourceData frame.path

/-- What the body of the dialog shows: the chart panel (with or without the
click handler), or the panel of the clicked value. -/
inductive ModalBody where
  | chart (option : DrillChart) (clickable : Bool)
  | clickedValue (shown : Option Val)
  deriving DecidableEq, Repr

/-- The conditional `displayChart ? <chart panel> : <clicked value panel>`. -/
def modalBody (drillData : Params) (s : NavState) : Except JsError ModalBody :=
  match displayChart drillData s with
  | Except.error e => Except.error e
  | Except.ok (some option) => Except.ok (ModalBody.chart option (canDrillDeeper drillData s))
  | Except.ok none => Except.ok (ModalBody.clickedValue (jsOr drillData.name drillData.dataName))

/-- The user actions on an open modal. -/
inductive NavAction where
  | descend (params : Params)
  | ascend
  | jump (idx : Nat)
  deriving DecidableEq, Repr

/-- One action applied to the navigator. -/
def navStep (drillData : Params) (s : NavState) : NavAction → Except JsError NavState
  | NavAction.descend params => handleDrillDown drillData s params
  | NavAction.ascend => Except.ok (handleBack s)
  | NavAction.jump idx => Except.ok (breadcrumbClick s idx)

/-- The navigator states of a drill session on `drillData`: the state the
opening effect sets, and every state a handler leaves behind. -/
inductive Reachable (drillData : Params) : NavState → Prop where
  | opened (prev : NavState) : Reachable drillData (openEffect (some drillData) true prev)
  | step {s t : NavState} (a : NavAction) :
      Reachable drillData s → navStep drillData s a = Except.ok t → Reachable drillData t

/-- Repeated `handleBack`. -/
def ascendTimes : Nat → NavState → NavState
  | 0, s => s
  | n + 1, s => ascendTimes n (handleBack s)

/-- The invariant of a drill session: the stack has one frame per level up to
the current one, each frame sits at its own level with its own configured
path, each descended frame records the field of the level above it, and a
level above 0 is only reached inside the configured path and with a source
dataset. -/
structure NavInv (drillData : Params) (s : NavState) : Prop where
  len : s.drillStack.length = s.currentLevel + 1
  frames : ∀ (i : Nat) (f : Frame), s.drillStack[i]? = some f →
    f.level = i ∧ f.path = drillData.drillPath.bind (fun p => p[i]?)
  filters : ∀ (i : Nat) (f : Frame), s.drillStack[i + 1]? = some f →
    ∃ cur fl, drillData.drillPath.bind (fun p => p[i]?) = some cur
      ∧ f.filter = some fl ∧ fl.field = cur.field
  deep : 0 < s.currentLevel →
    ∃ p rows, drillData.drillPath = some p ∧ s.currentLevel < p.length
      ∧ drillData.sourceData = some rows

/-- Stated in the words of the specification: the candidate rows of a frame
are the source rows that survive the filter of every frame of the stack. -/
def candidateRows (sourceData : List Row) (stack : List Frame) : List Row :=
  sourceData.filter (fun row =>
    stack.all (fun f =>
      match f.filter with
      | some fl => strictEq (getProp row fl.field) fl.value
      | none => true))

/-- The key under which `generateDrillChart` counts a row: the string form of
its value of `field` when that value is truthy; for a row without the
property, the string form of the member of `Object.prototype` called `field`,
when there is one.  A row whose value is falsy, or missing with no such
member, is not counted. -/
def countedKey (field : String) (item : Row) : Option String :=
  match getProp item field with
  | some v => if truthy (some v) then some (toPropertyKey v) else none
  | none => if field ∈ objectPrototypeKeys then some (inheritedMemberText field) else none

/-- The `(name, value)` pairs a drill chart shows: the data of a pie, or the
category axis paired with the series of a bar, line or area chart. -/
def chartPairs : DrillChart → List (String × AggVal)
  | DrillChart.pie data => data
  | DrillChart.cartesian _ xAxisData seriesData _ => xAxisData.zip seriesData

/-- The state of `aggregated` after the rows `l`: its keys are distinct, and
the value under `name` is the number of rows of `l` counted under `name`. -/
def AggInv (field : String) (l : List Row) (aggregated : List (String × AggVal)) : Prop :=
  (aggregated.map Prod.fst).Nodup
  ∧ ∀ name : String,
      aggregated.lookup name
        = if l.countP (fun item => decide (countedKey field item = some name)) = 0 then none
          else some (AggVal.count
            (l.countP (fun item => decide (countedKey field item = some name))))

/-- The condition of the card header, `hasSelection && (<Badge>Filtered</Badge>)`:
whether the widget shows its Filtered badge. -/
def showsFilteredBadge (hub : BrushHub) (chartId : String) : Bool :=
  hasSelection hub chartId

/-- The hub states of a running dashboard: the initial state, and every state
that the `handleBrushEnd` of some widget leaves behind (the only code that
calls `onBrushSelect` and `clearBrush`). -/
inductive HubReachable : BrushHub → Prop where
  | initial : HubReachable initialHub
  | brushEnd {hub : BrushHub} (chartId : String) (data : Option (List Row))
      (params : BrushParams) :
      HubReachable hub → HubReachable (handleBrushEnd hub chartId data params)

/-! ## InteractiveChart.jsx: the click handler -/

/-- Handler `handleChartClick(params)`.  The result is the value of the call
`onDrillDown(...)`, and `none` when nothing is called; `onDrillDown` is the
optional property of the widget. -/
def handleChartClick {β : Type} (localDrillPath : List DrillLevel)
    (onDrillDown : Option (Params → β)) (data : Option (List Row)) (params : Params) :
    Option β :=
  if localDrillPath.length > 0 then
    match onDrillDown with
    | some callback =>
      some (callback { params with drillPath := some localDrillPath, sourceData := data })
    | none => none
  else none

/-! ## DraggableGrid.jsx: reordering by drag and drop -/

/-- The result of a drag: `result.source.index`, and `result.destination.index`
when the drop has a destination. -/
structure DropResult where
  source : Nat
  destination : Option Nat
  deriving DecidableEq, Repr

/-- Handler `handleDragEnd(result)`: the list passed to `onReorder`, and `none`
when `onReorder` is not called.  An entry `none` of the list is `undefined`,
which the second `splice` inserts when the first one removed nothing. -/
def handleDragEnd {α : Type} (items : List α) (result : DropResult) :
    Option (List (Option α)) :=
  match result.destination with
  | none => none
  | some destination =>
    let newItems : List (Option α) := items.map some
    let removed : Option α := (newItems[result.source]?).join
    let afterRemoval := newItems.eraseIdx result.source
    some (afterRemoval.take destination ++ removed :: afterRemoval.drop destination)

/-! ## DashboardExport.jsx and Dashboard.jsx: importing a configuration -/

/-- One entry of `items` in a configuration file, with the fields the import
reads; each value is kept as its JSON text. -/
structure ConfigItem where
  title : Option String
  description : Option String
  chart_type : Option String
  chart_config : Option String
  query : Option String
  deriving DecidableEq, Repr

/-- The object passed to `createInsightMutation.mutateAsync`. -/
structure InsightData where
  title : Option String
  description : Option String
  chart_type : Option String
  chart_config : Option String
  data_source_id : String
  query : Option String
  pinned_to_dashboard : Bool
  deriving DecidableEq, Repr

/-- A JSON value as far as the import tells values apart: an object or an
array, kept as its JSON text, or a scalar. -/
inductive JsonValue where
  | composite (text : String)
  | scalar (v : Val)
  deriving DecidableEq, Repr

/-- Truthiness of a JSON value in a condition: every object and array is
truthy, a scalar is as `truthy` says, and an absent value is falsy. -/
def jsonTruthy : Option JsonValue → Bool
  | some (JsonValue.composite _) => true
  | some (JsonValue.scalar v) => truthy (some v)
  | none => false

/-- The parsed JSON of an imported file: its `items` (absent or an array) and
its `theme`. -/
structure ParsedFile where
  items : Option (List ConfigItem)
  theme : Option JsonValue
  deriving DecidableEq, Repr

/-- The value bound to the parameter `config` of `handleImportConfig`: an
object with properties `items` and `theme`, or an array of items. -/
inductive ImportArg where
  | object (items : Option (List ConfigItem)) (theme : Option JsonValue)
  | array (elements : List ConfigItem)
  deriving DecidableEq, Repr

/-- What a run of `handleImportConfig` does: the insights created, the theme
stored in `localStorage`, the alerts shown, and the error raised, if any. -/
structure ImportOutcome where
  created : List InsightData
  storedTheme : Option JsonValue
  alerts : List String
  raised : Option JsError
  deriving DecidableEq, Repr

/-- Function `Dashboard.handleImportConfig(config)`.  The destructuring
`const { items, theme } = config` reads the properties `items` and `theme`,
which an array does not have; `for (const item of items)` raises when `items`
is `undefined`; the theme is stored under `if (theme)` only.  The calls of
`createInsightMutation.mutateAsync` are taken to succeed. -/
def handleImportConfig (selectedDataSource : Option String) (config : ImportArg) :
    ImportOutcome :=
  let items : Option (List ConfigItem) :=
    match config with
    | ImportArg.object items _ => items
    | ImportArg.array _ => none
  let theme : Option JsonValue :=
    match config with
    | ImportArg.object _ theme => theme
    | ImportArg.array _ => none
  match selectedDataSource with
  | none =>
    { created := [], storedTheme := none,
      alerts := ["Please select a data source before importing dashboard configuration."],
      raised := none }
  | some dataSource =>
    if dataSource = "" then
      { created := [], storedTheme := none,
        alerts := ["Please select a data source before importing dashboard configuration."],
        raised := none }
    else
      match items with
      | none =>
        { created := [], storedTheme := none, alerts := [], raised := some JsError.typeError }
      | some items =>
        { created := items.map (fun item =>
            { title := item.title, description := item.description,
              chart_type := item.chart_type, chart_config := item.chart_config,
              data_source_id := dataSource, query := item.query,
              pinned_to_dashboard := true }),
          storedTheme := if jsonTruthy theme then theme else none,
          alerts := ["Dashboard configuration imported successfully!"],
          raised := none }

/-- Function `DashboardExport.handleImport`, from the parsed file on: the
value of the call `onImport(config.items, config.theme)`, and `none` when
`config.items` is absent and nothing is called. -/
def handleImport {γ : Type} (onImport : ImportArg → Option JsonValue → γ)
    (config : ParsedFile) :
    Option γ :=
  match config.items with
  | some items => some (onImport (ImportArg.array items) config.theme)
  | none => none

/-- The wiring `<DashboardExport onImport={handleImportConfig} />` of the
dashboard page: `handleImportConfig` has one parameter, so the second argument
of the call is dropped. -/
def importOnDashboard (selectedDataSource : Option String) (config : ParsedFile) :
    Option ImportOutcome :=
  handleImport (fun first _ => handleImportConfig selectedDataSource first) config

/-! ## TemplateLibrary.jsx: sharing a template -/

/-- White space as `String.prototype.trim` sees it, by code point. -/
def isJsWhitespace (c : Char) : Bool :=
  c.toNat ∈ [9, 10, 11, 12, 13, 32, 160, 5760, 8192, 8193, 8194, 8195, 8196, 8197, 8198,
    8199, 8200, 8201, 8202, 8232, 8233, 8239, 8287, 12288, 65279]

/-- The call `s.trim()`. -/
def jsTrim (s : String) : String :=
  String.mk (((s.data.dropWhile isJsWhitespace).reverse.dropWhile isJsWhitespace).reverse)

/-- The pieces of a character list between its commas. -/
def splitComma : List Char → List (List Char)
  | [] => [[]]
  | c :: cs =>
    if c = ',' then [] :: splitComma cs
    else
      match splitComma cs with
      | [] => [[c]]
      | piece :: others => (c :: piece) :: others

/-- The call `s.split(',')`. -/
def jsSplitComma (s : String) : List String :=
  (splitComma s.data).map String.mk

/-- The expression `[...new Set(list)]`: the distinct entries, each at the
place of its first occurrence. -/
def setToArray (list : List String) : List String :=
  list.foldl (fun seen e => if e ∈ seen then seen else seen ++ [e]) []

/-- A dashboard template, with the fields the share mutation reads. -/
structure Template where
  id : String
  shared_with : Option (List String)
  deriving DecidableEq, Repr

/-- The update sent to `DashboardTemplate.update`. -/
structure TemplateUpdate where
  is_shared : Bool
  shared_with : List String
  deriving DecidableEq, Repr

/-- The list `newEmails = emails.split(',').map(e => e.trim()).filter(e => e)`. -/
def newEmails (emails : String) : List String :=
  ((jsSplitComma emails).map jsTrim).filter (fun e => decide (e ≠ ""))

/-- The `mutationFn` of `shareTemplateMutation`: the id and the update passed
to `DashboardTemplate.update`.  Reading `shared_with` of a template that is not
found raises. -/
def shareTemplate (myTemplates : List Template) (id : String) (emails : String) :
    Except JsError (String × TemplateUpdate) :=
  match myTemplates.find? (fun t => decide (t.id = id)) with
  | none => Except.error JsError.typeError
  | some template =>
    let existingEmails := template.shared_with.getD []
    Except.ok (id, { is_shared := true,
                     shared_with := setToArray (existingEmails ++ newEmails emails) })

/-! ## Example data -/

/-- The three-row dataset used in the worked examples. -/
def exampleRows : List Row :=
  [[("region", Val.str "East"), ("sales", Val.num 10)],
   [("region", Val.str "West"), ("sales", Val.num 20)],
   [("region", Val.str "East"), ("sales", Val.num 5)]]

/-- A hub in which chart `a` has published the rows of region East. -/
def exampleHub : BrushHub :=
  { selectedData := some [[("region", Val.str "East")]], activeChartId := some "a" }

/-- A configuration with one series and no payload in its other fields. -/
def exampleConfig : ChartConfig Unit Unit Unit :=
  { series := some [{ data := SeriesData.given (), others := () }], others := () }

/-- A drill level on `field`, drawn as a bar chart. -/
def exampleLevel (field : String) : DrillLevel :=
  { field := field, label := "", chartType := "bar" }

/-- The click event of the chart item called `name`. -/
def clickOn (name : String) : Params :=
  { name := some (Val.str name), dataName := none, chartConfig := none,
    drillPath := none, sourceData := none }

/-- Three rows with a region, a category and a product. -/
def drillRows : List Row :=
  [[("region", Val.str "East"), ("category", Val.str "A"), ("product", Val.str "P")],
   [("region", Val.str "West"), ("category", Val.str "A"), ("product", Val.str "P")],
   [("region", Val.str "East"), ("category", Val.str "B"), ("product", Val.str "Q")]]

/-- Drill data with the two levels region and category. -/
def twoLevelDrill : Params :=
  { name := some (Val.str "East"), dataName := none, chartConfig := none,
    drillPath := some [exampleLevel "region", exampleLevel "category"],
    sourceData := some drillRows }

/-- Drill data with the three levels region, category and product. -/
def threeLevelDrill : Params :=
  { name := some (Val.str "East"), dataName := none, chartConfig := none,
    drillPath := some [exampleLevel "region", exampleLevel "category", exampleLevel "product"],
    sourceData := some drillRows }

/-- Drill data of a chart whose data source has no rows attached
(`sourceData` is `undefined`). -/
def noSourceDrill : Params :=
  { name := some (Val.str "East"), dataName := none, chartConfig := none,
    drillPath := some [exampleLevel "region", exampleLevel "category"],
    sourceData := none }

/-- The frame that a click on East appends at level 1 of `twoLevelDrill`: the
two East rows are counted by category. -/
def eastFrame : Frame :=
  { level := 1,
    data := { clickOn "East" with
              chartConfig := some (DrillChart.cartesian "bar" ["A", "B"]
                [AggVal.count 1, AggVal.count 1] [(0, "#667eea"), (1, "#764ba2")]) },
    path := some (exampleLevel "category"),
    filter := some { field := "region", value := some (Val.str "East") } }

/-- The state of `twoLevelDrill` after the click on East. -/
def descendedEast : NavState :=
  { drillStack := (openEffect (some twoLevelDrill) true initialNav).drillStack ++ [eastFrame],
    currentLevel := 1 }

/-- The state of `threeLevelDrill` after the click on East at level 0. -/
def threeLevelEast : NavState :=
  { drillStack := (openEffect (some threeLevelDrill) true initialNav).drillStack ++ [eastFrame],
    currentLevel := 1 }

/-- The frame that a click on category A appends at level 2 of
`threeLevelDrill`: both rows of category A are counted by product, the West
row among them. -/
def categoryFrame : Frame :=
  { level := 2,
    data := { clickOn "A" with
              chartConfig := some (DrillChart.cartesian "bar" ["P"]
                [AggVal.count 2] [(0, "#667eea"), (1, "#764ba2")]) },
    path := some (exampleLevel "product"),
    filter := some { field := "category", value := some (Val.str "A") } }

/-- The state of `threeLevelDrill` after the clicks on East and then on A. -/
def threeLevelEastA : NavState :=
  { drillStack := threeLevelEast.drillStack ++ [categoryFrame], currentLevel := 2 }

/-- Three rows whose values of `k` are the number 0, the number 1 and the
string "1". -/
def mixedRows : List Row :=
  [[("k", Val.num 0)], [("k", Val.num 1)], [("k", Val.str "1")]]

/-- One row whose value of `k` is the name of a member of `Object.prototype`. -/
def inheritedNameRows : List Row :=
  [[("k", Val.str "toString")]]

/-- Two rows with a numeric year and a category. -/
def yearRows : List Row :=
  [[("year", Val.num 2020), ("category", Val.str "A")],
   [("year", Val.num 2021), ("category", Val.str "B")]]

/-- Drill data with the two levels year and category over `yearRows`. -/
def yearDrill : Params :=
  { name := some (Val.str "2020"), dataName := none, chartConfig := none,
    drillPath := some [exampleLevel "year", exampleLevel "category"],
    sourceData := some yearRows }

/-- The state of `yearDrill` after the click on the bar named 2020: the new
frame carries no chart, since no row has the string "2020" as its year. -/
def yearDescended : NavState :=
  { drillStack := (openEffect (some yearDrill) true initialNav).drillStack ++
      [{ level := 1,
         data := clickOn "2020",
         path := some (exampleLevel "category"),
         filter := some { field := "year", value := some (Val.str "2020") } }],
    currentLevel := 1 }

/-- A hub in which chart `a` has published a row of region North, a region
that no example row has. -/
def northHub : BrushHub :=
  { selectedData := some [[("region", Val.str "North")]], activeChartId := some "a" }

/-- A hub in which chart `a` has published a row of region East and a row of
region West, which together match every example row. -/
def eastWestHub : BrushHub :=
  { selectedData := some [[("region", Val.str "East")], [("region", Val.str "West")]],
    activeChartId := some "a" }

/-- The hub after chart `a` has brushed the indices 0 to 1 of the example rows. -/
def brushedHub : BrushHub :=
  { selectedData := some [[("region", Val.str "East"), ("sales", Val.num 10)],
                          [("region", Val.str "West"), ("sales", Val.num 20)]],
    activeChartId := some "a" }

/-- Drill data with the single level region over the example rows. -/
def oneLevelDrill : Params :=
  { name := some (Val.str "East"), dataName := none, chartConfig := none,
    drillPath := some [exampleLevel "region"],
    sourceData := some exampleRows }

/-- An exported configuration with two items and a theme. -/
def exampleFile : ParsedFile :=
  { items := some
      [{ title := some "Sales", description := none, chart_type := some "bar",
         chart_config := some "series", query := none },
       { title := some "Costs", description := none, chart_type := some "line",
         chart_config := some "series", query := none }],
    theme := some (JsonValue.composite "\x7b\"mode\":\"dark\"\x7d") }

/-- A template already shared with one address. -/
def exampleTemplate : Template :=
  { id := "t1", shared_with := some ["a@x.org"] }

/-- Where a drag from index `source` to index `destination` puts the items:
the dragged item taken out, then put back at `destination`. -/
def movedItems {α : Type} (items : List α) (source destination : Nat) : List α :=
  match items[source]? with
  | some dragged =>
    (items.eraseIdx source).take destination
      ++ dragged :: (items.eraseIdx source).drop destination
  | none => items

/-! ## Lemmas on the chart widget -/

theorem rowMatches_iff (item selected : Row) :
    rowMatches item selected = true ↔
      ∀ k ∈ selected.map Prod.fst, getProp item k = getProp selected k := by
  simp [rowMatches, objectKeys, strictEq]

theorem crossFilter_eq_filter (D S : List Row) :
    crossFilter D S
      = D.filter (fun r => decide (∃ s ∈ S, ∀ k ∈ s.map Prod.fst, getProp r k = getProp s k)) := by
  unfold crossFilter
  congr 1
  funext r
  rw [Bool.eq_iff_iff]
  simp only [List.any_eq_true, rowMatches_iff, decide_eq_true_eq]

theorem foldl_push_filter {α β : Type} (P : α → Prop) [DecidablePred P] (f : α → β)
    (l : List α) (init : List β) :
    l.foldl (fun acc p => if P p then acc ++ [f p] else acc) init
      = init ++ (l.filter (fun p => decide (P p))).map f := by
  induction l generalizing init with
  | nil => simp
  | cons x xs ih =>
    simp only [List.foldl_cons, List.filter_cons]
    rw [ih]
    by_cases h : P x <;> simp [h]

theorem enumFrom_filter_slice (D : List Row) (n : Nat) (lo hi : Int) :
    ((D.enumFrom n).filter (fun p => decide ((p.1 : Int) ≥ lo ∧ (p.1 : Int) ≤ hi))).map Prod.snd
      = (D.take (hi + 1 - n).toNat).drop (lo - n).toNat := by
  induction D generalizing n with
  | nil => simp
  | cons x xs ih =>
    simp only [List.enumFrom_cons, List.filter_cons]
    have ih1 := ih (n + 1)
    by_cases h1 : (n : Int) ≥ lo ∧ (n : Int) ≤ hi
    · have e1 : (hi + 1 - (n : Int)).toNat = (hi + 1 - ((n + 1 : Nat) : Int)).toNat + 1 := by
        push_cast; omega
      have e2 : (lo - (n : Int)).toNat = 0 := by omega
      have e3 : (lo - ((n + 1 : Nat) : Int)).toNat = 0 := by push_cast; omega
      simp only [h1, and_self, decide_True, List.map_cons, ite_true]
      rw [ih1, e1, e2, e3]
      simp
    · simp only [h1, decide_False, Bool.false_eq_true, ite_false]
      rw [ih1]
      by_cases h2 : (n : Int) < lo
      · have e2 : (lo - (n : Int)).toNat = (lo - ((n + 1 : Nat) : Int)).toNat + 1 := by
          push_cast; omega
        by_cases h3 : hi + 1 - (n : Int) ≤ 0
        · have e1 : (hi + 1 - (n : Int)).toNat = 0 := by omega
          have e4 : (hi + 1 - ((n + 1 : Nat) : Int)).toNat = 0 := by push_cast; omega
          rw [e1, e4]
          simp
        · have e1 : (hi + 1 - (n : Int)).toNat = (hi + 1 - ((n + 1 : Nat) : Int)).toNat + 1 := by
            push_cast; omega
          rw [e1, e2]
          simp
      · have e1 : (hi + 1 - (n : Int)).toNat = 0 := by omega
        have e4 : (hi + 1 - ((n + 1 : Nat) : Int)).toNat = 0 := by push_cast; omega
        rw [e1, e4]
        simp

theorem collectSelected_eq_slice (D : List Row) (xStart xEnd : Int) :
    collectSelected D xStart xEnd = (D.take (xEnd + 1).toNat).drop xStart.toNat := by
  unfold collectSelected
  rw [foldl_push_filter (fun p : Nat × Row => (p.1 : Int) ≥ xStart ∧ (p.1 : Int) ≤ xEnd) Prod.snd]
  have h := enumFrom_filter_slice D 0 xStart xEnd
  simpa [List.enum] using h

theorem getElem?_slice (D : List Row) (lo hi : Int) (j : Nat) :
    ((D.take (hi + 1).toNat).drop lo.toNat)[j]?
      = if ((lo.toNat + j : Nat) : Int) ≤ hi then D[lo.toNat + j]? else none := by
  rw [List.getElem?_drop, List.getElem?_take]
  by_cases h : ((lo.toNat + j : Nat) : Int) ≤ hi
  · have h2 : lo.toNat + j < (hi + 1).toNat := by omega
    rw [if_pos h2, if_pos h]
  · have h2 : ¬ lo.toNat + j < (hi + 1).toNat := by omega
    rw [if_neg h2, if_neg h]

/-! ## The claims on the hub and the chart widget -/

/-- C1: a widget that is not the owner of the active selection, with own rows
`D` and published rows `S`, places in every series of its configuration the
rows `R`, where `R` is exactly the rows `r` of `D` for which some `s` in `S`
has `r[k] = s[k]` for every key `k` of `s` (in the order of `D`), and `R` is
all of `D` when no row of `D` satisfies this; for non-empty `D` the list `R`
is never empty. -/
theorem C1_cross_filter_rendered_rows {δ σ ρ : Type} (hub : BrushHub) (chartId : String)
    (D S : List Row) (chartConfig : ChartConfig δ σ ρ)
    (hsel : hub.selectedData = some S) (hown : hub.activeChartId ≠ some chartId) :
    ∃ R : List Row,
      filteredChartConfig hub chartId (some D) chartConfig
        = { chartConfig with
            series := chartConfig.series.map
              (List.map (fun s => { s with data := SeriesData.rows R })) }
      ∧ ((∃ r ∈ D, ∃ s ∈ S, ∀ k ∈ s.map Prod.fst, getProp r k = getProp s k) →
          R = D.filter
            (fun r => decide (∃ s ∈ S, ∀ k ∈ s.map Prod.fst, getProp r k = getProp s k)))
      ∧ ((¬ ∃ r ∈ D, ∃ s ∈ S, ∀ k ∈ s.map Prod.fst, getProp r k = getProp s k) → R = D)
      ∧ (D ≠ [] → R ≠ []) := by
  refine ⟨if (crossFilter D S).length > 0 then crossFilter D S else D, ?_, ?_, ?_, ?_⟩
  · have h1 : hasSelection hub chartId = true := by
      simp [hasSelection, isThisChartActive, hsel, hown]
    simp only [filteredChartConfig, h1, hsel]
  · intro hex
    have hne : (crossFilter D S).length > 0 := by
      obtain ⟨r, hr, hm⟩ := hex
      apply List.length_pos_of_mem (a := r)
      rw [crossFilter_eq_filter]
      simp only [List.mem_filter, decide_eq_true_eq]
      exact ⟨hr, hm⟩
    rw [if_pos hne, crossFilter_eq_filter]
  · intro hno
    have he : crossFilter D S = [] := by
      rw [crossFilter_eq_filter, List.filter_eq_nil_iff]
      intro r hr hm
      exact hno ⟨r, hr, of_decide_eq_true hm⟩
    simp [he]
  · intro hD
    by_cases hne : (crossFilter D S).length > 0
    · rw [if_pos hne]
      exact List.ne_nil_of_length_pos hne
    · rw [if_neg hne]
      exact hD

/-- Witness of C1 on the example: chart `b` holds the three example rows while
chart `a` has published the East selection. -/
theorem C1_cross_filter_rendered_rows_witness :
    exampleHub.selectedData = some [[("region", Val.str "East")]]
    ∧ exampleHub.activeChartId ≠ some "b"
    ∧ ∃ R : List Row,
      filteredChartConfig exampleHub "b" (some exampleRows) exampleConfig
        = { exampleConfig with
            series := exampleConfig.series.map
              (List.map (fun s => { s with data := SeriesData.rows R })) }
      ∧ ((∃ r ∈ exampleRows, ∃ s ∈ [[("region", Val.str "East")]],
            ∀ k ∈ s.map Prod.fst, getProp r k = getProp s k) →
          R = exampleRows.filter
            (fun r => decide (∃ s ∈ [[("region", Val.str "East")]],
              ∀ k ∈ s.map Prod.fst, getProp r k = getProp s k)))
      ∧ ((¬ ∃ r ∈ exampleRows, ∃ s ∈ [[("region", Val.str "East")]],
            ∀ k ∈ s.map Prod.fst, getProp r k = getProp s k) → R = exampleRows)
      ∧ (exampleRows ≠ [] → R ≠ []) :=
  ⟨rfl, by decide,
    C1_cross_filter_rendered_rows exampleHub "b" exampleRows [[("region", Val.str "East")]]
      exampleConfig rfl (by decide)⟩

/-- C4: from every hub state, for every chart id and every row list (so for
every non-empty one), the state after `onBrushSelect(id, rows)` has
`activeChartId = id` and `selectedData = rows`, and nothing else. -/
theorem C4_publish_then_current (hub : BrushHub) (id : String) (rows : List Row) :
    (onBrushSelect hub id rows).activeChartId = some id
    ∧ (onBrushSelect hub id rows).selectedData = some rows
    ∧ onBrushSelect hub id rows = { selectedData := some rows, activeChartId := some id } :=
  ⟨rfl, rfl, rfl⟩

/-- C5: for every dataset and every brush `coordRange = [xStart, xEnd]`, the
rows `handleBrushEnd` collects are the slice of the dataset from index
`xStart` to index `xEnd` inclusive: the `j`-th collected row is the row at
index `max xStart 0 + j` as long as that index is at most `xEnd`, and a row
is collected exactly when it sits at an index `i` with `xStart ≤ i ≤ xEnd`.
When the collected list is not empty the hub afterwards holds exactly that
list under the widget's own `chartId`. -/
theorem C5_brush_collects_index_range (hub : BrushHub) (chartId : String) (D : List Row)
    (xStart xEnd : Int) (others : List BrushArea) :
    brushSelected (some D) { coordRange := some (xStart, xEnd) }
        = (D.take (xEnd + 1).toNat).drop xStart.toNat
    ∧ (∀ j : Nat, (brushSelected (some D) { coordRange := some (xStart, xEnd) })[j]?
        = if ((xStart.toNat + j : Nat) : Int) ≤ xEnd then D[xStart.toNat + j]? else none)
    ∧ (∀ r : Row, r ∈ brushSelected (some D) { coordRange := some (xStart, xEnd) } ↔
        ∃ i : Nat, xStart ≤ (i : Int) ∧ (i : Int) ≤ xEnd ∧ D[i]? = some r)
    ∧ (brushSelected (some D) { coordRange := some (xStart, xEnd) } ≠ [] →
        handleBrushEnd hub chartId (some D)
            { areas := some ({ coordRange := some (xStart, xEnd) } :: others) }
          = { selectedData := some (brushSelected (some D) { coordRange := some (xStart, xEnd) }),
              activeChartId := some chartId }) := by
  have hs : brushSelected (some D) { coordRange := some (xStart, xEnd) }
      = (D.take (xEnd + 1).toNat).drop xStart.toNat := by
    simp only [brushSelected]
    exact collectSelected_eq_slice D xStart xEnd
  refine ⟨hs, ?_, ?_, ?_⟩
  · intro j
    rw [hs]
    exact getElem?_slice D xStart xEnd j
  · intro r
    rw [hs, List.mem_iff_getElem?]
    constructor
    · rintro ⟨j, hj⟩
      rw [getElem?_slice] at hj
      by_cases h : ((xStart.toNat + j : Nat) : Int) ≤ xEnd
      · rw [if_pos h] at hj
        exact ⟨xStart.toNat + j, by omega, h, hj⟩
      · rw [if_neg h] at hj
        exact absurd hj (by simp)
    · rintro ⟨i, h1, h2, h3⟩
      refine ⟨i - xStart.toNat, ?_⟩
      rw [getElem?_slice]
      have e : xStart.toNat + (i - xStart.toNat) = i := by omega
      rw [e, if_pos h2]
      exact h3
  · intro hne
    have hpos : (brushSelected (some D) { coordRange := some (xStart, xEnd) }).length > 0 :=
      List.length_pos_of_ne_nil hne
    simp only [handleBrushEnd, hpos, if_true, onBrushSelect]

/-- Witness of C5, the worked example: the brush `[0, 1]` on the three example
rows publishes rows 0 and 1 under the chart's own id. -/
theorem C5_brush_collects_index_range_witness :
    brushSelected (some exampleRows) { coordRange := some (0, 1) }
      = [[("region", Val.str "East"), ("sales", Val.num 10)],
         [("region", Val.str "West"), ("sales", Val.num 20)]]
    ∧ handleBrushEnd initialHub "a" (some exampleRows)
          { areas := some [{ coordRange := some (0, 1) }] }
        = { selectedData := some [[("region", Val.str "East"), ("sales", Val.num 10)],
                                  [("region", Val.str "West"), ("sales", Val.num 20)]],
            activeChartId := some "a" } := by
  have h := (C5_brush_collects_index_range initialHub "a" exampleRows 0 1 []).2.2.2
  have e : brushSelected (some exampleRows) { coordRange := some (0, 1) }
      = [[("region", Val.str "East"), ("sales", Val.num 10)],
         [("region", Val.str "West"), ("sales", Val.num 20)]] := by decide
  rw [e] at h
  exact ⟨e, h (by decide)⟩

/-! ## Lemmas on the drill-down navigator -/

theorem generateDrillChart_some_path (data : Option (List Row)) (path : DrillLevel) :
    ∃ c, generateDrillChart data (some path) = Except.ok c := by
  unfold generateDrillChart
  cases data with
  | none => exact ⟨_, rfl⟩
  | some l =>
    cases l with
    | nil => exact ⟨_, rfl⟩
    | cons d ds =>
      simp only
      split_ifs <;> exact ⟨_, rfl⟩

theorem canDrillDeeper_iff (drillData : Params) (s : NavState) :
    canDrillDeeper drillData s = true ↔
      ∃ p, drillData.drillPath = some p ∧ s.currentLevel + 1 < p.length := by
  unfold canDrillDeeper hasPath
  cases h : drillData.drillPath with
  | none => simp
  | some p =>
    simp only [Bool.and_eq_true, decide_eq_true_eq, Option.some.injEq, exists_eq_left']
    omega

/-- What `handleDrillDown` does on a state whose current frame carries the
configured path of its level, when the guard lets it through. -/
theorem handleDrillDown_descends (drillData : Params) (s : NavState) (params : Params)
    (p : List DrillLevel) (rows : List Row) (frame : Frame)
    (hp : drillData.drillPath = some p) (hlt : s.currentLevel + 1 < p.length)
    (hsrc : drillData.sourceData = some rows)
    (hcur : s.drillStack[s.currentLevel]? = some frame)
    (hpath : frame.path = p[s.currentLevel]?) :
    ∃ cur next config,
      p[s.currentLevel]? = some cur ∧ p[s.currentLevel + 1]? = some next
      ∧ generateDrillChart
          (some (filterSource rows cur.field (jsOr params.name params.dataName))) (some next)
          = Except.ok config
      ∧ handleDrillDown drillData s params = Except.ok
          { drillStack := s.drillStack ++
              [{ level := s.currentLevel + 1,
                 data := { params with chartConfig := config },
                 path := some next,
                 filter := some { field := cur.field,
                                  value := jsOr params.name params.dataName } }],
            currentLevel := s.currentLevel + 1 } := by
  have h0 : s.currentLevel < p.length := by omega
  have hc : p[s.currentLevel]? = some p[s.currentLevel] := List.getElem?_eq_getElem h0
  have hn : p[s.currentLevel + 1]? = some p[s.currentLevel + 1] := List.getElem?_eq_getElem hlt
  obtain ⟨config, hconfig⟩ := generateDrillChart_some_path
    (some (filterSource rows p[s.currentLevel].field (jsOr params.name params.dataName)))
    p[s.currentLevel + 1]
  refine ⟨p[s.currentLevel], p[s.currentLevel + 1], config, hc, hn, hconfig, ?_⟩
  have hcan : canDrillDeeper drillData s = true := (canDrillDeeper_iff drillData s).2 ⟨p, hp, hlt⟩
  have hcd : (currentDrill s).bind (fun f => f.path) = some p[s.currentLevel] := by
    simp [currentDrill, hcur, hpath, hc]
  simp only [handleDrillDown, hcan, hsrc, hp, hcd, Option.some_bind, hn, hconfig,
    Bool.not_true, Bool.false_eq_true, if_false]

/-- Either `handleDrillDown` leaves the state alone, or it raises, or it
appends one frame as described by `handleDrillDown_descends`. -/
theorem handleDrillDown_cases (drillData : Params) (s t : NavState) (params : Params)
    (h : handleDrillDown drillData s params = Except.ok t) :
    t = s ∨
    ∃ p rows cur config,
      drillData.drillPath = some p ∧ s.currentLevel + 1 < p.length
      ∧ drillData.sourceData = some rows
      ∧ (currentDrill s).bind (fun f => f.path) = some cur
      ∧ t = { drillStack := s.drillStack ++
                [{ level := s.currentLevel + 1,
                   data := { params with chartConfig := config },
                   path := p[s.currentLevel + 1]?,
                   filter := some { field := cur.field,
                                    value := jsOr params.name params.dataName } }],
              currentLevel := s.currentLevel + 1 } := by
  unfold handleDrillDown at h
  by_cases hcan : canDrillDeeper drillData s = true
  · obtain ⟨p, hp, hlt⟩ := (canDrillDeeper_iff drillData s).1 hcan
    simp only [hcan, Bool.not_true, Bool.false_eq_true, if_false] at h
    cases hsrc : drillData.sourceData with
    | none =>
      simp only [hsrc] at h
      exact Or.inl (Except.ok.inj h).symm
    | some rows =>
      simp only [hsrc] at h
      cases hcd : (currentDrill s).bind (fun f => f.path) with
      | none => rw [hcd] at h; exact absurd h (by simp)
      | some cur =>
        rw [hcd] at h
        simp only [hp, Option.some_bind] at h
        cases hg : generateDrillChart
            (some (filterSource rows cur.field (jsOr params.name params.dataName)))
            p[s.currentLevel + 1]? with
        | error e => simp only [hg] at h; exact absurd h (by simp)
        | ok config =>
          simp only [hg] at h
          exact Or.inr ⟨p, rows, cur, config, hp, hlt, rfl, rfl, (Except.ok.inj h).symm⟩
  · simp only [Bool.not_eq_true] at hcan
    simp only [hcan, Bool.not_false, if_true] at h
    exact Or.inl (Except.ok.inj h).symm

theorem navInv_opened (drillData : Params) (prev : NavState) :
    NavInv drillData (openEffect (some drillData) true prev) := by
  refine ⟨rfl, ?_, ?_, ?_⟩
  · intro i f hf
    cases i with
    | zero =>
      simp only [openEffect, List.getElem?_cons_zero, Option.some.injEq] at hf
      subst hf
      exact ⟨rfl, rfl⟩
    | succ n => simp [openEffect] at hf
  · intro i f hf
    simp [openEffect] at hf
  · intro h
    simp [openEffect] at h

theorem navInv_handleBack (drillData : Params) (s : NavState) (h : NavInv drillData s) :
    NavInv drillData (handleBack s) := by
  unfold handleBack
  by_cases hpos : s.currentLevel > 0
  · rw [if_pos hpos]
    have hlen := h.len
    have hdl : s.drillStack.dropLast = s.drillStack.take s.currentLevel := by
      rw [List.dropLast_eq_take, hlen]; rfl
    refine ⟨?_, ?_, ?_, ?_⟩
    · simp only [List.length_dropLast, hlen]; omega
    · intro i f hf
      simp only [hdl, List.getElem?_take] at hf
      split_ifs at hf
      exact h.frames i f hf
    · intro i f hf
      simp only [hdl, List.getElem?_take] at hf
      split_ifs at hf
      exact h.filters i f hf
    · intro h2
      simp only at h2
      obtain ⟨p, rows, hp, hlt, hsrc⟩ := h.deep hpos
      exact ⟨p, rows, hp, by simp only; omega, hsrc⟩
  · rw [if_neg hpos]; exact h

theorem navInv_breadcrumbClick (drillData : Params) (s : NavState) (idx : Nat)
    (h : NavInv drillData s) : NavInv drillData (breadcrumbClick s idx) := by
  unfold breadcrumbClick
  by_cases hlt : idx < s.currentLevel
  · rw [if_pos hlt]
    have hlen := h.len
    refine ⟨?_, ?_, ?_, ?_⟩
    · simp only [List.length_take, hlen]; omega
    · intro i f hf
      simp only [List.getElem?_take] at hf
      split_ifs at hf
      exact h.frames i f hf
    · intro i f hf
      simp only [List.getElem?_take] at hf
      split_ifs at hf
      exact h.filters i f hf
    · intro h2
      simp only at h2
      obtain ⟨p, rows, hp, hlt2, hsrc⟩ := h.deep (by omega)
      exact ⟨p, rows, hp, by simp only; omega, hsrc⟩
  · rw [if_neg hlt]; exact h

theorem navInv_handleDrillDown (drillData : Params) (s t : NavState) (params : Params)
    (h : NavInv drillData s) (ht : handleDrillDown drillData s params = Except.ok t) :
    NavInv drillData t := by
  rcases handleDrillDown_cases drillData s t params ht with rfl | ⟨p, rows, cur, config, hp, hlt, hsrc, hcd, rfl⟩
  · exact h
  · have hlen := h.len
    have hcur : ∃ frame, s.drillStack[s.currentLevel]? = some frame ∧ frame.path = some cur := by
      unfold currentDrill at hcd
      cases hf : s.drillStack[s.currentLevel]? with
      | none => simp [hf] at hcd
      | some frame => exact ⟨frame, rfl, by simpa [hf] using hcd⟩
    obtain ⟨frame, hframe, hfp⟩ := hcur
    have hfr := (h.frames _ _ hframe).2
    rw [hfp, hp, Option.some_bind] at hfr
    refine ⟨?_, ?_, ?_, ?_⟩
    · simp only [List.length_append, List.length_singleton, hlen]
    · intro i f hf
      by_cases hi : i < s.drillStack.length
      · rw [List.getElem?_append_left hi] at hf
        exact h.frames i f hf
      · rw [List.getElem?_append_right (by omega)] at hf
        have hi0 : i - s.drillStack.length = 0 := by
          by_contra hne
          obtain ⟨m, hm⟩ := Nat.exists_eq_succ_of_ne_zero hne
          rw [hm] at hf
          simp at hf
        rw [hi0] at hf
        simp only [List.getElem?_cons_zero, Option.some.injEq] at hf
        have hi1 : i = s.currentLevel + 1 := by omega
        subst hf
        simp only [hi1, hp, Option.some_bind, and_self]
    · intro i f hf
      by_cases hi : i + 1 < s.drillStack.length
      · rw [List.getElem?_append_left hi] at hf
        exact h.filters i f hf
      · rw [List.getElem?_append_right (by omega)] at hf
        have hi0 : i + 1 - s.drillStack.length = 0 := by
          by_contra hne
          obtain ⟨m, hm⟩ := Nat.exists_eq_succ_of_ne_zero hne
          rw [hm] at hf
          simp at hf
        rw [hi0] at hf
        simp only [List.getElem?_cons_zero, Option.some.injEq] at hf
        have hi1 : i = s.currentLevel := by omega
        subst hf
        refine ⟨cur, _, ?_, rfl, rfl⟩
        rw [hi1, hp, Option.some_bind]
        exact hfr.symm
    · intro _
      exact ⟨p, rows, hp, hlt, hsrc⟩

/-- Every reachable navigator state satisfies the session invariant. -/
theorem reachable_navInv (drillData : Params) (s : NavState) (h : Reachable drillData s) :
    NavInv drillData s := by
  induction h with
  | opened prev => exact navInv_opened drillData prev
  | step a _ hstep ih =>
    cases a with
    | descend params => exact navInv_handleDrillDown drillData _ _ params ih hstep
    | ascend =>
      have e := Except.ok.inj hstep
      rw [← e]
      exact navInv_handleBack drillData _ ih
    | jump idx =>
      have e := Except.ok.inj hstep
      rw [← e]
      exact navInv_breadcrumbClick drillData _ idx ih

theorem ascendTimes_eq_take (k : Nat) (s : NavState)
    (hlen : s.drillStack.length = s.currentLevel + 1) (hk : k ≤ s.currentLevel) :
    ascendTimes k s
      = { currentLevel := s.currentLevel - k,
          drillStack := s.drillStack.take (s.currentLevel - k + 1) } := by
  induction k generalizing s with
  | zero =>
    cases s with
    | mk stack level =>
      simp only [ascendTimes, Nat.sub_zero, NavState.mk.injEq, and_true]
      simp only at hlen
      rw [← hlen, List.take_length]
  | succ n ih =>
    have hpos : s.currentLevel > 0 := by omega
    have hb : handleBack s
        = { currentLevel := s.currentLevel - 1, drillStack := s.drillStack.dropLast } := by
      simp only [handleBack, hpos, if_true]
    have hdl : s.drillStack.dropLast = s.drillStack.take s.currentLevel := by
      rw [List.dropLast_eq_take, hlen]; rfl
    simp only [ascendTimes]
    rw [hb, ih _ (by simp only [List.length_dropLast, hlen]; omega) (by simp only; omega)]
    simp only [hdl, List.take_take, NavState.mk.injEq]
    refine ⟨?_, by omega⟩
    congr 1
    omega

/-- The description of a descent on a reachable state, shared by the claims
on `handleDrillDown`: the chart of the appended frame is the aggregation, by
the field of the next level, of the rows of the whole source dataset that
pass the filter of the current level. -/
theorem descend_on_reachable (drillData : Params) (s : NavState) (params : Params)
    (p : List DrillLevel) (rows : List Row)
    (h : Reachable drillData s) (hp : drillData.drillPath = some p)
    (hlt : (s.currentLevel : Int) < (p.length : Int) - 1)
    (hsrc : drillData.sourceData = some rows) :
    ∃ cur next config,
      p[s.currentLevel]? = some cur ∧ p[s.currentLevel + 1]? = some next
      ∧ generateDrillChart
          (some (filterSource rows cur.field (jsOr params.name params.dataName))) (some next)
          = Except.ok config
      ∧ handleDrillDown drillData s params = Except.ok
          { drillStack := s.drillStack ++
              [{ level := s.currentLevel + 1,
                 data := { params with chartConfig := config },
                 path := some next,
                 filter := some { field := cur.field,
                                  value := jsOr params.name params.dataName } }],
            currentLevel := s.currentLevel + 1 } := by
  have inv := reachable_navInv drillData s h
  have hlt2 : s.currentLevel + 1 < p.length := by omega
  have hin : s.currentLevel < s.drillStack.length := by rw [inv.len]; omega
  have hcur : s.drillStack[s.currentLevel]? = some s.drillStack[s.currentLevel] :=
    List.getElem?_eq_getElem hin
  have hpath := (inv.frames _ _ hcur).2
  rw [hp, Option.some_bind] at hpath
  exact handleDrillDown_descends drillData s params p rows _ hp hlt2 hsrc hcur hpath

/-- In every reachable state the bottom frame carries the drill data itself. -/
theorem reachable_root_frame (drillData : Params) (s : NavState)
    (h : Reachable drillData s) :
    ∃ f, s.drillStack[0]? = some f ∧ f.data = drillData := by
  induction h with
  | opened prev => exact ⟨_, rfl, rfl⟩
  | @step s t a hreach hstep ih =>
    obtain ⟨f, hf, hdata⟩ := ih
    have inv := reachable_navInv drillData s hreach
    have hpos : 0 < s.drillStack.length := by rw [inv.len]; omega
    cases a with
    | descend params =>
      rcases handleDrillDown_cases drillData s t params hstep with
        rfl | ⟨_, _, _, _, _, _, _, _, rfl⟩
      · exact ⟨f, hf, hdata⟩
      · refine ⟨f, ?_, hdata⟩
        simp only
        rw [List.getElem?_append_left hpos]
        exact hf
    | ascend =>
      have e := Except.ok.inj hstep
      rw [← e]
      unfold handleBack
      by_cases hl : s.currentLevel > 0
      · rw [if_pos hl]
        refine ⟨f, ?_, hdata⟩
        have hdl : s.drillStack.dropLast = s.drillStack.take s.currentLevel := by
          rw [List.dropLast_eq_take, inv.len]; rfl
        simp only [hdl, List.getElem?_take, hl, if_true]
        exact hf
      · rw [if_neg hl]
        exact ⟨f, hf, hdata⟩
    | jump idx =>
      have e := Except.ok.inj hstep
      rw [← e]
      unfold breadcrumbClick
      by_cases hl : idx < s.currentLevel
      · rw [if_pos hl]
        refine ⟨f, ?_, hdata⟩
        simp only [List.getElem?_take, Nat.zero_lt_succ, if_true]
        exact hf
      · rw [if_neg hl]
        exact ⟨f, hf, hdata⟩

/-- A reachable state in which the modal has a chart to show, for drill data
that came without a chart of its own, has a source dataset: without one the
stack is the bottom frame alone and `generateDrillChart` returns `null`. -/
theorem shown_chart_has_source (drillData : Params) (s : NavState) (option : DrillChart)
    (h : Reachable drillData s) (hevent : drillData.chartConfig = none)
    (hshown : displayChart drillData s = Except.ok (some option)) :
    ∃ rows, drillData.sourceData = some rows := by
  cases hsrc : drillData.sourceData with
  | some rows => exact ⟨rows, rfl⟩
  | none =>
    exfalso
    have inv := reachable_navInv drillData s h
    have h0 : s.currentLevel = 0 := by
      by_contra hne
      obtain ⟨_, rows, _, _, hr⟩ := inv.deep (Nat.pos_of_ne_zero hne)
      rw [hsrc] at hr
      cases hr
    obtain ⟨f, hf, hdata⟩ := reachable_root_frame drillData s h
    have hcur : currentDrill s = some f := by
      unfold currentDrill
      rw [h0]
      exact hf
    have hcfg : f.data.chartConfig = none := by rw [hdata]; exact hevent
    simp only [displayChart, hcur, hcfg, hsrc, generateDrillChart] at hshown
    cases hshown

/-- What the modal shows when it shows a chart with the click handler. -/
theorem modalBody_chart_iff (drillData : Params) (s : NavState) (option : DrillChart)
    (clickable : Bool)
    (h : modalBody drillData s = Except.ok (ModalBody.chart option clickable)) :
    displayChart drillData s = Except.ok (some option)
    ∧ clickable = canDrillDeeper drillData s := by
  unfold modalBody at h
  cases hd : displayChart drillData s with
  | error e => rw [hd] at h; cases h
  | ok c =>
    rw [hd] at h
    cases c with
    | none => simp only at h; cases h
    | some o =>
      simp only at h
      cases h
      exact ⟨rfl, rfl⟩

/-- Without a source dataset the modal shows no chart: the opened session of
`noSourceDrill` shows the panel of the clicked value, which carries no click
handler, and `handleDrillDown`, were it called, would return at its guard. -/
theorem without_source_no_chart_is_shown :
    modalBody noSourceDrill (openEffect (some noSourceDrill) true initialNav)
      = Except.ok (ModalBody.clickedValue (some (Val.str "East")))
    ∧ handleDrillDown noSourceDrill (openEffect (some noSourceDrill) true initialNav)
          (clickOn "East")
        = Except.ok (openEffect (some noSourceDrill) true initialNav) :=
  ⟨rfl, rfl⟩

/-! ## The claims on the drill-down navigator -/

/-- C3: in every navigator state reachable from the opening of a drill session
with a non-empty drill path, by any sequence of descents, ascents and
breadcrumb jumps, `drillStack.length - 1 = currentLevel` and
`currentLevel ≤ drillPath.length - 1` (both over the integers). -/
theorem C3_stack_level_invariant (drillData : Params) (p : List DrillLevel) (s : NavState)
    (hp : drillData.drillPath = some p) (hne : p ≠ []) (h : Reachable drillData s) :
    (s.drillStack.length : Int) - 1 = (s.currentLevel : Int)
    ∧ (s.currentLevel : Int) ≤ (p.length : Int) - 1 := by
  have inv := reachable_navInv drillData s h
  have hlen := inv.len
  have hpl : 0 < p.length := List.length_pos_of_ne_nil hne
  refine ⟨by omega, ?_⟩
  by_cases h0 : 0 < s.currentLevel
  · obtain ⟨q, rows, hq, hlt, _⟩ := inv.deep h0
    rw [hp] at hq
    cases hq
    omega
  · omega

/-- Witness of C3: the state of the two-level example after the click on East. -/
theorem C3_stack_level_invariant_witness :
    twoLevelDrill.drillPath = some [exampleLevel "region", exampleLevel "category"]
    ∧ [exampleLevel "region", exampleLevel "category"] ≠ []
    ∧ Reachable twoLevelDrill descendedEast
    ∧ (descendedEast.drillStack.length : Int) - 1 = (descendedEast.currentLevel : Int)
    ∧ (descendedEast.currentLevel : Int)
        ≤ ([exampleLevel "region", exampleLevel "category"].length : Int) - 1 :=
  have hr : Reachable twoLevelDrill descendedEast :=
    Reachable.step (NavAction.descend (clickOn "East")) (Reachable.opened initialNav) rfl
  ⟨rfl, by decide, hr,
    C3_stack_level_invariant twoLevelDrill [exampleLevel "region", exampleLevel "category"]
      descendedEast rfl (by decide) hr⟩

/-- C7: for every open navigator state with
`currentLevel < drillPath.length - 1` and every click that the modal delivers,
whatever its value (also one that matches no row), `handleDrillDown` appends
exactly one frame, with `level = currentLevel + 1`,
`path = drillPath[currentLevel + 1]` and
`filter = (drillPath[currentLevel].field, clicked value)`, leaves the earlier
frames as they are and increments `currentLevel` by one.  A click is delivered
by the chart of the modal, the only element that carries `handleDrillDown`:
the modal shows a chart with the click handler; the drill data is what
`handleChartClick` forwards, a click event, which has no `chartConfig` of its
own. -/
theorem C7_descend_appends_one_frame (drillData : Params) (s : NavState) (params : Params)
    (p : List DrillLevel) (option : DrillChart)
    (h : Reachable drillData s) (hp : drillData.drillPath = some p)
    (hlt : (s.currentLevel : Int) < (p.length : Int) - 1)
    (hevent : drillData.chartConfig = none)
    (hshown : modalBody drillData s = Except.ok (ModalBody.chart option true)) :
    ∃ cur next f,
      p[s.currentLevel]? = some cur ∧ p[s.currentLevel + 1]? = some next
      ∧ handleDrillDown drillData s params
          = Except.ok { drillStack := s.drillStack ++ [f], currentLevel := s.currentLevel + 1 }
      ∧ f.level = s.currentLevel + 1 ∧ f.path = some next
      ∧ f.filter = some { field := cur.field, value := jsOr params.name params.dataName } := by
  obtain ⟨rows, hsrc⟩ := shown_chart_has_source drillData s option h hevent
    (modalBody_chart_iff drillData s option true hshown).1
  obtain ⟨cur, next, config, hc, hn, _, hd⟩ :=
    descend_on_reachable drillData s params p rows h hp hlt hsrc
  exact ⟨cur, next, _, hc, hn, hd, rfl, rfl, rfl⟩

/-- Witness of C7, the worked example: two levels region and category, the
modal shows the bar chart of the regions with the click handler, click on
East at level 0; the stack then has length 2 and the current level is 1. -/
theorem C7_descend_appends_one_frame_witness :
    Reachable twoLevelDrill (openEffect (some twoLevelDrill) true initialNav)
    ∧ twoLevelDrill.drillPath = some [exampleLevel "region", exampleLevel "category"]
    ∧ ((openEffect (some twoLevelDrill) true initialNav).currentLevel : Int)
        < ([exampleLevel "region", exampleLevel "category"].length : Int) - 1
    ∧ twoLevelDrill.chartConfig = none
    ∧ modalBody twoLevelDrill (openEffect (some twoLevelDrill) true initialNav)
        = Except.ok (ModalBody.chart
            (DrillChart.cartesian "bar" ["East", "West"] [AggVal.count 2, AggVal.count 1]
              [(0, "#667eea"), (1, "#764ba2")]) true)
    ∧ (∃ cur next f,
        [exampleLevel "region", exampleLevel "category"][0]? = some cur
        ∧ [exampleLevel "region", exampleLevel "category"][0 + 1]? = some next
        ∧ handleDrillDown twoLevelDrill (openEffect (some twoLevelDrill) true initialNav)
            (clickOn "East")
          = Except.ok
              { drillStack :=
                  (openEffect (some twoLevelDrill) true initialNav).drillStack ++ [f],
                currentLevel := 0 + 1 }
        ∧ f.level = 0 + 1 ∧ f.path = some next
        ∧ f.filter = some { field := cur.field, value := some (Val.str "East") })
    ∧ descendedEast.drillStack.length = 2 ∧ descendedEast.currentLevel = 1 :=
  ⟨Reachable.opened initialNav, rfl, by decide, rfl, rfl,
    C7_descend_appends_one_frame twoLevelDrill (openEffect (some twoLevelDrill) true initialNav)
      (clickOn "East") [exampleLevel "region", exampleLevel "category"]
      (DrillChart.cartesian "bar" ["East", "West"] [AggVal.count 2, AggVal.count 1]
        [(0, "#667eea"), (1, "#764ba2")])
      (Reachable.opened initialNav) rfl (by decide) rfl rfl,
    rfl, rfl⟩

/-- C8: for every open navigator state in which descend is valid
(`currentLevel < drillPath.length - 1`) and every click, `handleDrillDown`
returns a state, and `handleBack` on that state gives back exactly the prior
`(drillStack, currentLevel)`. -/
theorem C8_descend_then_ascend_restores (drillData : Params) (s : NavState) (params : Params)
    (p : List DrillLevel)
    (h : Reachable drillData s) (hp : drillData.drillPath = some p)
    (hlt : (s.currentLevel : Int) < (p.length : Int) - 1) :
    ∃ t, handleDrillDown drillData s params = Except.ok t ∧ handleBack t = s := by
  have inv := reachable_navInv drillData s h
  cases hsrc : drillData.sourceData with
  | none =>
    refine ⟨s, ?_, ?_⟩
    · simp only [handleDrillDown, hsrc, ite_self]
    · have h0 : ¬ s.currentLevel > 0 := by
        intro hpos
        obtain ⟨_, rows, _, _, hr⟩ := inv.deep hpos
        rw [hsrc] at hr
        cases hr
      simp only [handleBack, h0, if_false]
  | some rows =>
    obtain ⟨cur, next, config, _, _, _, hd⟩ :=
      descend_on_reachable drillData s params p rows h hp hlt hsrc
    refine ⟨_, hd, ?_⟩
    simp [handleBack]

/-- Witness of C8: on the two-level example, the click on East followed by
Back gives back the opened state. -/
theorem C8_descend_then_ascend_restores_witness :
    Reachable twoLevelDrill (openEffect (some twoLevelDrill) true initialNav)
    ∧ twoLevelDrill.drillPath = some [exampleLevel "region", exampleLevel "category"]
    ∧ ((openEffect (some twoLevelDrill) true initialNav).currentLevel : Int)
        < ([exampleLevel "region", exampleLevel "category"].length : Int) - 1
    ∧ ∃ t, handleDrillDown twoLevelDrill (openEffect (some twoLevelDrill) true initialNav)
          (clickOn "East") = Except.ok t
        ∧ handleBack t = openEffect (some twoLevelDrill) true initialNav :=
  ⟨Reachable.opened initialNav, rfl, by decide,
    C8_descend_then_ascend_restores twoLevelDrill
      (openEffect (some twoLevelDrill) true initialNav) (clickOn "East")
      [exampleLevel "region", exampleLevel "category"] (Reachable.opened initialNav) rfl
      (by decide)⟩

/-- C9: for every reachable open navigator state and every target level `t`
with `0 ≤ t < currentLevel`, the breadcrumb jump to `t` gives the same
`(drillStack, currentLevel)` as `handleBack` applied `currentLevel - t` times;
and the jump to 0 equals `handleBack` applied `currentLevel` times. -/
theorem C9_breadcrumb_jump_is_repeated_ascend (drillData : Params) (s : NavState)
    (h : Reachable drillData s) :
    (∀ t : Nat, t < s.currentLevel →
      breadcrumbClick s t = ascendTimes (s.currentLevel - t) s)
    ∧ breadcrumbClick s 0 = ascendTimes s.currentLevel s := by
  have inv := reachable_navInv drillData s h
  have key : ∀ t : Nat, t ≤ s.currentLevel →
      ascendTimes (s.currentLevel - t) s
        = { currentLevel := t, drillStack := s.drillStack.take (t + 1) } := by
    intro t ht
    rw [ascendTimes_eq_take _ s inv.len (by omega)]
    have e : s.currentLevel - (s.currentLevel - t) = t := by omega
    rw [e]
  constructor
  · intro t ht
    rw [key t (by omega)]
    simp only [breadcrumbClick, ht, if_true]
  · by_cases h0 : 0 < s.currentLevel
    · have e := key 0 (by omega)
      rw [Nat.sub_zero] at e
      rw [e]
      simp only [breadcrumbClick, h0, if_true]
    · have e : s.currentLevel = 0 := by omega
      rw [e]
      simp only [breadcrumbClick, ascendTimes, e, Nat.lt_irrefl, if_false]

/-- Witness of C9: from level 2 of the three-level example, the jump to the
first breadcrumb and two presses of Back both give the opened state. -/
theorem C9_breadcrumb_jump_is_repeated_ascend_witness :
    Reachable threeLevelDrill threeLevelEastA
    ∧ (∀ t : Nat, t < threeLevelEastA.currentLevel →
        breadcrumbClick threeLevelEastA t
          = ascendTimes (threeLevelEastA.currentLevel - t) threeLevelEastA)
    ∧ breadcrumbClick threeLevelEastA 0 = ascendTimes threeLevelEastA.currentLevel threeLevelEastA
    ∧ breadcrumbClick threeLevelEastA 0 = openEffect (some threeLevelDrill) true initialNav
    ∧ handleBack (handleBack threeLevelEastA) = openEffect (some threeLevelDrill) true initialNav :=
  have hr : Reachable threeLevelDrill threeLevelEastA :=
    Reachable.step (NavAction.descend (clickOn "A"))
      (Reachable.step (NavAction.descend (clickOn "East")) (Reachable.opened initialNav) rfl)
      rfl
  ⟨hr, (C9_breadcrumb_jump_is_repeated_ascend threeLevelDrill threeLevelEastA hr).1,
    (C9_breadcrumb_jump_is_repeated_ascend threeLevelDrill threeLevelEastA hr).2, rfl, rfl⟩

/-- C2, as the code has it: for every open drill session at a level
`k < drillPath.length - 1` with a source dataset and every clicked value `v`,
the rows that the descent aggregates for the new frame are exactly the rows
of the whole source dataset whose value of `drillPath[k].field` is strictly
equal to `v`; the filters of the ancestor frames are not applied.  The chart
stored in the new frame is `generateDrillChart` of those rows and of
`drillPath[k + 1]`. -/
theorem C2_descend_filters_whole_source (drillData : Params) (s : NavState) (params : Params)
    (p : List DrillLevel) (rows : List Row)
    (h : Reachable drillData s) (hp : drillData.drillPath = some p)
    (hlt : (s.currentLevel : Int) < (p.length : Int) - 1)
    (hsrc : drillData.sourceData = some rows) :
    ∃ cur next f,
      p[s.currentLevel]? = some cur ∧ p[s.currentLevel + 1]? = some next
      ∧ handleDrillDown drillData s params
          = Except.ok { drillStack := s.drillStack ++ [f], currentLevel := s.currentLevel + 1 }
      ∧ generateDrillChart
          (some (rows.filter
            (fun row => decide (getProp row cur.field = jsOr params.name params.dataName))))
          (some next)
          = Except.ok f.data.chartConfig := by
  obtain ⟨cur, next, config, hc, hn, hg, hd⟩ :=
    descend_on_reachable drillData s params p rows h hp hlt hsrc
  exact ⟨cur, next, _, hc, hn, hd, hg⟩

/-- Witness of C2 on the three-level example: at level 1, after the click on
East, the click on A aggregates by product the two source rows of category A,
so the chart of the new frame counts 2 for product P. -/
theorem C2_descend_filters_whole_source_witness :
    Reachable threeLevelDrill threeLevelEast
    ∧ threeLevelDrill.drillPath
        = some [exampleLevel "region", exampleLevel "category", exampleLevel "product"]
    ∧ (threeLevelEast.currentLevel : Int)
        < ([exampleLevel "region", exampleLevel "category", exampleLevel "product"].length : Int) - 1
    ∧ threeLevelDrill.sourceData = some drillRows
    ∧ ∃ cur next f,
      [exampleLevel "region", exampleLevel "category", exampleLevel "product"][1]? = some cur
      ∧ [exampleLevel "region", exampleLevel "category", exampleLevel "product"][1 + 1]?
          = some next
      ∧ handleDrillDown threeLevelDrill threeLevelEast (clickOn "A")
          = Except.ok { drillStack := threeLevelEast.drillStack ++ [f], currentLevel := 1 + 1 }
      ∧ generateDrillChart
          (some (drillRows.filter
            (fun row => decide (getProp row cur.field = some (Val.str "A")))))
          (some next)
          = Except.ok f.data.chartConfig :=
  have hr : Reachable threeLevelDrill threeLevelEast :=
    Reachable.step (NavAction.descend (clickOn "East")) (Reachable.opened initialNav) rfl
  ⟨hr, rfl, by decide, rfl,
    C2_descend_filters_whole_source threeLevelDrill threeLevelEast (clickOn "A")
      [exampleLevel "region", exampleLevel "category", exampleLevel "product"] drillRows
      hr rfl (by decide) rfl⟩

/-- Counterexample to C2 as stated: in the three-level example, after the
click on East at level 0 and the click on A at level 1, the claim has the
level-2 aggregation count the single source row with region East and
category A (count 1 for product P); the code counts both rows of category A,
the West row included (count 2 for product P). -/
theorem C2_counterexample_ancestor_filter_not_applied :
    Reachable threeLevelDrill threeLevelEast
    ∧ handleDrillDown threeLevelDrill threeLevelEast (clickOn "A") = Except.ok threeLevelEastA
    ∧ (currentDrill threeLevelEastA).map (fun f => f.data.chartConfig)
        = some (some (DrillChart.cartesian "bar" ["P"] [AggVal.count 2]
            [(0, "#667eea"), (1, "#764ba2")]))
    ∧ (candidateRows drillRows threeLevelEast.drillStack).filter
          (fun row => strictEq (getProp row "category") (some (Val.str "A")))
        = [[("region", Val.str "East"), ("category", Val.str "A"), ("product", Val.str "P")]]
    ∧ generateDrillChart
          (some ((candidateRows drillRows threeLevelEast.drillStack).filter
            (fun row => strictEq (getProp row "category") (some (Val.str "A")))))
          (some (exampleLevel "product"))
        = Except.ok (some (DrillChart.cartesian "bar" ["P"] [AggVal.count 1]
            [(0, "#667eea"), (1, "#764ba2")]))
    ∧ generateDrillChart
          (some ((candidateRows drillRows threeLevelEast.drillStack).filter
            (fun row => strictEq (getProp row "category") (some (Val.str "A")))))
          (some (exampleLevel "product"))
        ≠ Except.ok ((currentDrill threeLevelEastA).bind (fun f => f.data.chartConfig)) := by
  refine ⟨Reachable.step (NavAction.descend (clickOn "East")) (Reachable.opened initialNav) rfl,
    rfl, rfl, by decide, rfl, ?_⟩
  intro h
  have h2 := Except.ok.inj h
  revert h2
  decide

/-! ## Lemmas on the aggregation of `generateDrillChart` -/

theorem lookup_cons_ite {β : Type} (k a1 : String) (a2 : β) (l : List (String × β)) :
    List.lookup k ((a1, a2) :: l) = if k = a1 then some a2 else List.lookup k l := by
  rw [List.lookup_cons]
  by_cases h : k = a1
  · have hb : (k == a1) = true := by simpa using h
    rw [hb, if_pos h]
  · have hb : (k == a1) = false := by simpa using h
    rw [hb, if_neg h]

theorem lookup_append_single {β : Type} (l : List (String × β)) (k1 : String) (v : β)
    (k : String) :
    (l ++ [(k1, v)]).lookup k
      = match l.lookup k with
        | some x => some x
        | none => if k = k1 then some v else none := by
  induction l with
  | nil =>
    rw [List.nil_append, lookup_cons_ite, List.lookup_nil]
  | cons a l ih =>
    obtain ⟨a1, a2⟩ := a
    rw [List.cons_append, lookup_cons_ite, lookup_cons_ite]
    by_cases h : k = a1
    · rw [if_pos h, if_pos h]
    · rw [if_neg h, if_neg h]
      exact ih

theorem lookup_map_replace {β : Type} (l : List (String × β)) (k1 : String) (v : β)
    (k : String) :
    (l.map (fun p => if p.1 = k1 then (k1, v) else p)).lookup k
      = if k = k1 then (l.lookup k).map (fun _ => v) else l.lookup k := by
  induction l with
  | nil => simp
  | cons a l ih =>
    obtain ⟨a1, a2⟩ := a
    rw [List.map_cons, lookup_cons_ite k a1 a2 l]
    by_cases ha : a1 = k1
    · have e : (if (a1, a2).1 = k1 then (k1, v) else (a1, a2)) = (k1, v) := if_pos ha
      rw [e, lookup_cons_ite, ih]
      by_cases hk : k = k1
      · have hk2 : k = a1 := by rw [hk, ha]
        simp only [if_pos hk, if_pos hk2, Option.map_some']
      · have hk2 : ¬ k = a1 := by rw [ha]; exact hk
        simp only [if_neg hk, if_neg hk2]
    · have e : (if (a1, a2).1 = k1 then (k1, v) else (a1, a2)) = (a1, a2) := if_neg ha
      rw [e, lookup_cons_ite, ih]
      by_cases hk : k = a1
      · have hk1 : ¬ k = k1 := by rw [hk]; exact ha
        simp only [if_pos hk, if_neg hk1]
      · simp only [if_neg hk]

theorem keys_map_replace {β : Type} (l : List (String × β)) (k1 : String) (v : β) :
    (l.map (fun p => if p.1 = k1 then (k1, v) else p)).map Prod.fst = l.map Prod.fst := by
  induction l with
  | nil => rfl
  | cons a l ih =>
    simp only [List.map_cons, ih, List.cons.injEq, and_true]
    by_cases ha : a.1 = k1 <;> simp [ha]

theorem lookup_eq_none_iff_not_mem_keys {β : Type} (l : List (String × β)) (k : String) :
    l.lookup k = none ↔ k ∉ l.map Prod.fst := by
  induction l with
  | nil => simp
  | cons a l ih =>
    obtain ⟨a1, a2⟩ := a
    rw [lookup_cons_ite]
    by_cases h : k = a1
    · simp [h]
    · rw [if_neg h, ih]
      simp [h]

theorem mem_iff_lookup_of_nodup_keys {β : Type} (l : List (String × β))
    (hnd : (l.map Prod.fst).Nodup) (k : String) (v : β) :
    (k, v) ∈ l ↔ l.lookup k = some v := by
  induction l with
  | nil => simp
  | cons a l ih =>
    obtain ⟨a1, a2⟩ := a
    simp only [List.map_cons, List.nodup_cons] at hnd
    rw [lookup_cons_ite]
    by_cases h : k = a1
    · subst h
      have hnot : (k, v) ∉ l := fun hm => hnd.1 (List.mem_map_of_mem Prod.fst hm)
      simp only [List.mem_cons, Prod.mk.injEq, true_and, hnot, or_false, if_true,
        Option.some.injEq]
      exact eq_comm
    · rw [if_neg h]
      simp only [List.mem_cons, Prod.mk.injEq, h, false_and, false_or]
      exact ih hnd.2

theorem lookup_setOwn (o : List (String × AggVal)) (k1 : String) (v : AggVal) (k : String) :
    (setOwn o k1 v).lookup k = if k = k1 then some v else o.lookup k := by
  unfold setOwn
  cases h : o.lookup k1 with
  | some x =>
    simp only [Option.isSome_some, if_true]
    rw [lookup_map_replace]
    by_cases hk : k = k1
    · simp [hk, h]
    · simp [hk]
  | none =>
    simp only [Option.isSome_none, Bool.false_eq_true, if_false]
    rw [lookup_append_single]
    by_cases hk : k = k1
    · simp [hk, h]
    · simp only [hk, if_false]
      cases o.lookup k <;> rfl

theorem keys_setOwn_nodup (o : List (String × AggVal)) (k1 : String) (v : AggVal)
    (hnd : (o.map Prod.fst).Nodup) : ((setOwn o k1 v).map Prod.fst).Nodup := by
  unfold setOwn
  cases h : o.lookup k1 with
  | some x =>
    simp only [Option.isSome_some, if_true]
    rw [keys_map_replace]
    exact hnd
  | none =>
    simp only [Option.isSome_none, Bool.false_eq_true, if_false, List.map_append, List.map_cons,
      List.map_nil]
    have hk : k1 ∉ o.map Prod.fst := (lookup_eq_none_iff_not_mem_keys o k1).1 h
    exact List.Nodup.append hnd (List.nodup_singleton k1) (by simpa using hk)

theorem aggregateStep_eq (field : String) (aggregated : List (String × AggVal)) (item : Row) :
    aggregateStep field aggregated item
      = match countedKey field item with
        | some k => bump aggregated k
        | none => aggregated := by
  unfold aggregateStep countedKey
  cases getProp item field with
  | none => by_cases h : field ∈ objectPrototypeKeys <;> simp [h]
  | some v =>
    by_cases h : truthy (some v) = true <;> simp [h]

theorem countP_append_single (field : String) (l : List Row) (item : Row) (name : String) :
    (l ++ [item]).countP (fun item => decide (countedKey field item = some name))
      = l.countP (fun item => decide (countedKey field item = some name))
        + (if countedKey field item = some name then 1 else 0) := by
  rw [List.countP_append]
  by_cases h : countedKey field item = some name <;> simp [List.countP_cons, h]

theorem aggInv_nil (field : String) : AggInv field [] [] := by
  refine ⟨List.nodup_nil, ?_⟩
  intro name
  simp

theorem aggInv_skip (field : String) (l : List Row) (aggregated : List (String × AggVal))
    (item : Row) (h : AggInv field l aggregated) (hk : countedKey field item = none) :
    AggInv field (l ++ [item]) aggregated := by
  refine ⟨h.1, ?_⟩
  intro name
  rw [countP_append_single, hk]
  simpa using h.2 name

theorem aggInv_bump (field : String) (l : List Row) (aggregated : List (String × AggVal))
    (item : Row) (k : String) (h : AggInv field l aggregated)
    (hk : countedKey field item = some k) (hproto : k ∉ objectPrototypeKeys) :
    AggInv field (l ++ [item]) (bump aggregated k) := by
  have hk0 := h.2 k
  have hne : k ≠ "__proto__" := by
    intro e
    apply hproto
    rw [e]
    decide
  have hcount : ∀ name : String,
      (l ++ [item]).countP (fun item => decide (countedKey field item = some name))
        = l.countP (fun item => decide (countedKey field item = some name))
          + (if name = k then 1 else 0) := by
    intro name
    rw [countP_append_single, hk]
    by_cases e : name = k
    · simp [e]
    · have e2 : ¬ k = name := fun x => e x.symm
      simp [e, e2]
  by_cases hc : l.countP (fun item => decide (countedKey field item = some k)) = 0
  · rw [if_pos hc] at hk0
    have hb : bump aggregated k = aggregated ++ [(k, AggVal.count 1)] := by
      simp only [bump, hk0, hne, hproto, if_false]
    rw [hb]
    constructor
    · rw [List.map_append]
      have hnot : k ∉ aggregated.map Prod.fst :=
        (lookup_eq_none_iff_not_mem_keys aggregated k).1 hk0
      exact List.Nodup.append h.1 (List.nodup_singleton k) (by simpa using hnot)
    · intro name
      rw [lookup_append_single, hcount name]
      by_cases e : name = k
      · subst e
        rw [hk0, hc]
        simp
      · rw [h.2 name]
        simp only [e, if_false, Nat.add_zero]
        split_ifs <;> rfl
  · rw [if_neg hc] at hk0
    have hb : bump aggregated k
        = setOwn aggregated k
            (AggVal.count (l.countP (fun item => decide (countedKey field item = some k)) + 1)) := by
      simp only [bump, hk0]
    rw [hb]
    constructor
    · exact keys_setOwn_nodup aggregated k _ h.1
    · intro name
      rw [lookup_setOwn, hcount name]
      by_cases e : name = k
      · subst e
        simp
      · rw [h.2 name]
        simp only [e, if_false, Nat.add_zero]

theorem aggInv_step (field : String) (l : List Row) (aggregated : List (String × AggVal))
    (item : Row) (h : AggInv field l aggregated)
    (hproto : ∀ k, countedKey field item = some k → k ∉ objectPrototypeKeys) :
    AggInv field (l ++ [item]) (aggregateStep field aggregated item) := by
  rw [aggregateStep_eq]
  cases hk : countedKey field item with
  | none => exact aggInv_skip field l aggregated item h hk
  | some k => exact aggInv_bump field l aggregated item k h hk (hproto k hk)

theorem aggInv_foldl (field : String) (l2 l1 : List Row) (aggregated : List (String × AggVal))
    (h : AggInv field l1 aggregated)
    (hproto : ∀ item ∈ l2, ∀ k, countedKey field item = some k → k ∉ objectPrototypeKeys) :
    AggInv field (l1 ++ l2) (l2.foldl (aggregateStep field) aggregated) := by
  induction l2 generalizing l1 aggregated with
  | nil => simpa using h
  | cons item rest ih =>
    have h1 := aggInv_step field l1 aggregated item h
      (hproto item (List.mem_cons_self item rest))
    have h2 := ih (l1 ++ [item]) (aggregateStep field aggregated item) h1
      (fun x hx => hproto x (List.mem_cons_of_mem item hx))
    simpa using h2

theorem objectEntries_perm (o : List (String × AggVal)) : (objectEntries o).Perm o := by
  unfold objectEntries
  have h1 := List.perm_insertionSort (fun a b : String × AggVal => indexValue a.1 ≤ indexValue b.1)
    (o.filter (fun p => isArrayIndex p.1))
  have h2 := List.filter_append_perm (fun p : String × AggVal => isArrayIndex p.1) o
  exact (List.Perm.append_right _ h1).trans h2

theorem zip_map_fst_snd {α β : Type} (l : List (α × β)) :
    (l.map (fun d => d.1)).zip (l.map (fun d => d.2)) = l := by
  induction l with
  | nil => rfl
  | cons a l ih => simp [ih]

/-! ## The claims on the aggregation and on the displayed chart -/

/-- C6, as the code has it: for every non-empty row list and every level with
a non-empty field, where the numbers in that field are safe integers and no
counted key is itself a member name of `Object.prototype`,
`generateDrillChart` returns a chart whose `(name, value)` pairs are
`chartData`; the names are pairwise distinct; there is a pair for `name`
exactly when some row is counted under `name`; and the value of that pair is
the number of such rows (a count, nothing summed or averaged).  A row is
counted under the string form of its value of the field when that value is
truthy, and, when it has no such property but the field names a member of
`Object.prototype`, under the string form of that member; rows whose value is
falsy are not counted, and values with the same string form share one pair. -/
theorem C6_chart_data_counts_rows_per_key (data : List Row) (path : DrillLevel)
    (hdata : data ≠ []) (hfield : path.field ≠ "")
    (hsafe : ∀ item ∈ data, ∀ n : Int,
      getProp item path.field = some (Val.num n) → safeInteger n = true)
    (hproto : ∀ item ∈ data, ∀ k ∈ objectPrototypeKeys, countedKey path.field item ≠ some k) :
    ∃ chart,
      generateDrillChart (some data) (some path) = Except.ok (some chart)
      ∧ chartPairs chart = chartData data path.field
      ∧ ((chartData data path.field).map Prod.fst).Nodup
      ∧ ∀ (name : String) (value : AggVal),
          (name, value) ∈ chartData data path.field ↔
            (∃ item ∈ data, countedKey path.field item = some name)
            ∧ value = AggVal.count
                (data.countP (fun item => decide (countedKey path.field item = some name))) := by
  have _ := hsafe
  have hinv : AggInv path.field data (data.foldl (aggregateStep path.field) []) := by
    have h := aggInv_foldl path.field data [] [] (aggInv_nil path.field)
      (fun item hi k hk hmem => hproto item hi k hmem hk)
    simpa using h
  have hperm := objectEntries_perm (data.foldl (aggregateStep path.field) [])
  have hnd : ((chartData data path.field).map Prod.fst).Nodup :=
    ((hperm.map Prod.fst).nodup_iff).2 hinv.1
  have hchart : ∃ chart, generateDrillChart (some data) (some path) = Except.ok (some chart)
      ∧ chartPairs chart = chartData data path.field := by
    cases data with
    | nil => exact absurd rfl hdata
    | cons d ds =>
      by_cases hpie : path.chartType = "pie"
      · refine ⟨DrillChart.pie (chartData (d :: ds) path.field), ?_, rfl⟩
        simp only [generateDrillChart, hfield, hpie, if_true, if_false]
      · refine ⟨DrillChart.cartesian (if path.chartType = "" then "bar" else path.chartType)
          ((chartData (d :: ds) path.field).map (fun d => d.1))
          ((chartData (d :: ds) path.field).map (fun d => d.2))
          [(0, "#667eea"), (1, "#764ba2")], ?_, ?_⟩
        · simp only [generateDrillChart, hfield, hpie, if_false]
        · simp only [chartPairs]
          exact zip_map_fst_snd _
  obtain ⟨chart, hc1, hc2⟩ := hchart
  refine ⟨chart, hc1, hc2, hnd, ?_⟩
  intro name value
  have hmem : (name, value) ∈ chartData data path.field
      ↔ (name, value) ∈ data.foldl (aggregateStep path.field) [] := hperm.mem_iff
  rw [hmem, mem_iff_lookup_of_nodup_keys _ hinv.1, hinv.2 name]
  by_cases hz : data.countP (fun item => decide (countedKey path.field item = some name)) = 0
  · rw [if_pos hz]
    constructor
    · intro h; cases h
    · rintro ⟨⟨item, hi, hk⟩, _⟩
      rw [List.countP_eq_zero] at hz
      exact absurd (by simpa using hk) (hz item hi)
  · rw [if_neg hz]
    constructor
    · intro h
      refine ⟨?_, (Option.some.inj h).symm⟩
      have hpos : 0 < data.countP (fun item => decide (countedKey path.field item = some name)) :=
        Nat.pos_of_ne_zero hz
      rw [List.countP_pos_iff] at hpos
      obtain ⟨item, hi, hk⟩ := hpos
      exact ⟨item, hi, by simpa using hk⟩
    · rintro ⟨_, hv⟩
      rw [hv]

/-- Witness of C6: the three example rows counted by category give one pair
for A with value 2 and one pair for B with value 1; and two rows without a
property `constructor`, counted by the field `constructor`, give one pair
with value 2 under the text of the inherited member. -/
theorem C6_chart_data_counts_rows_per_key_witness :
    drillRows ≠ []
    ∧ (exampleLevel "category").field ≠ ""
    ∧ (∀ item ∈ drillRows, ∀ n : Int,
        getProp item (exampleLevel "category").field = some (Val.num n) → safeInteger n = true)
    ∧ (∀ item ∈ drillRows, ∀ k ∈ objectPrototypeKeys,
        countedKey (exampleLevel "category").field item ≠ some k)
    ∧ chartData drillRows "category" = [("A", AggVal.count 2), ("B", AggVal.count 1)]
    ∧ chartData yearRows "constructor"
        = [("function Object() \x7b [native code] \x7d", AggVal.count 2)]
    ∧ ∃ chart,
      generateDrillChart (some drillRows) (some (exampleLevel "category"))
        = Except.ok (some chart)
      ∧ chartPairs chart = chartData drillRows (exampleLevel "category").field
      ∧ ((chartData drillRows (exampleLevel "category").field).map Prod.fst).Nodup
      ∧ ∀ (name : String) (value : AggVal),
          (name, value) ∈ chartData drillRows (exampleLevel "category").field ↔
            (∃ item ∈ drillRows, countedKey (exampleLevel "category").field item = some name)
            ∧ value = AggVal.count
                (drillRows.countP
                  (fun item => decide (countedKey (exampleLevel "category").field item
                    = some name))) :=
  have hsafe : ∀ item ∈ drillRows, ∀ n : Int,
      getProp item (exampleLevel "category").field = some (Val.num n) → safeInteger n = true := by
    intro item hi n hn
    simp only [drillRows, List.mem_cons, List.mem_singleton, List.not_mem_nil, or_false] at hi
    rcases hi with rfl | rfl | rfl
    · have e : getProp [("region", Val.str "East"), ("category", Val.str "A"),
          ("product", Val.str "P")] (exampleLevel "category").field = some (Val.str "A") := rfl
      rw [e] at hn
      cases hn
    · have e : getProp [("region", Val.str "West"), ("category", Val.str "A"),
          ("product", Val.str "P")] (exampleLevel "category").field = some (Val.str "A") := rfl
      rw [e] at hn
      cases hn
    · have e : getProp [("region", Val.str "East"), ("category", Val.str "B"),
          ("product", Val.str "Q")] (exampleLevel "category").field = some (Val.str "B") := rfl
      rw [e] at hn
      cases hn
  ⟨by decide, by decide, hsafe, by decide, by decide, by decide,
    C6_chart_data_counts_rows_per_key drillRows (exampleLevel "category")
      (by decide) (by decide) hsafe (by decide)⟩

/-- Counterexample to C6 as stated.  In `mixedRows` the field `k` takes three
distinct values, the number 0, the number 1 and the string "1", each in one
row; the chart data is the single pair `("1", 2)`: the value 0 has no pair,
and no value occurs in two rows.  In `inheritedNameRows` the only pair has a
value that is not a count.  In `yearRows` no row has a value of the field
`constructor`, yet the chart data has a pair, with value 2. -/
theorem C6_counterexample_falsy_and_coerced_keys :
    generateDrillChart (some mixedRows) (some (exampleLevel "k"))
      = Except.ok (some (DrillChart.cartesian "bar" ["1"] [AggVal.count 2]
          [(0, "#667eea"), (1, "#764ba2")]))
    ∧ chartData mixedRows "k" = [("1", AggVal.count 2)]
    ∧ (mixedRows.filterMap (fun item => getProp item "k")).dedup
        = [Val.num 0, Val.num 1, Val.str "1"]
    ∧ (∀ v ∈ [Val.num 0, Val.num 1, Val.str "1"],
        mixedRows.countP (fun item => decide (getProp item "k" = some v)) = 1)
    ∧ ¬ (∀ v ∈ (mixedRows.filterMap (fun item => getProp item "k")).dedup,
          ∃ pair ∈ chartData mixedRows "k",
            pair.1 = toPropertyKey v
            ∧ pair.2 = AggVal.count
                (mixedRows.countP (fun item => decide (getProp item "k" = some v))))
    ∧ ¬ ((chartData mixedRows "k").length
          = ((mixedRows.filterMap (fun item => getProp item "k")).dedup).length)
    ∧ chartData inheritedNameRows "k" = [("toString", AggVal.text)]
    ∧ yearRows.filterMap (fun item => getProp item "constructor") = []
    ∧ chartData yearRows "constructor"
        = [("function Object() \x7b [native code] \x7d", AggVal.count 2)] := by
  refine ⟨rfl, by decide, by decide, by decide, by decide, by decide, by decide, by decide,
    by decide⟩

/-- C10, the code at the failing input.  In `yearDrill` the level-0 chart
names its bars "2020" and "2021"; the click on "2020" matches no source row,
because the years are numbers, so the appended frame carries no chart; the
modal then shows, for that frame, the bar chart of the whole source dataset
by category, not an empty state. -/
theorem C10_empty_descent_shows_whole_source_chart :
    modalBody yearDrill (openEffect (some yearDrill) true initialNav)
      = Except.ok (ModalBody.chart
          (DrillChart.cartesian "bar" ["2020", "2021"] [AggVal.count 1, AggVal.count 1]
            [(0, "#667eea"), (1, "#764ba2")]) true)
    ∧ filterSource yearRows "year" (some (Val.str "2020")) = []
    ∧ handleDrillDown yearDrill (openEffect (some yearDrill) true initialNav) (clickOn "2020")
        = Except.ok yearDescended
    ∧ (currentDrill yearDescended).map (fun f => f.data.chartConfig) = some none
    ∧ modalBody yearDrill yearDescended
        = Except.ok (ModalBody.chart
            (DrillChart.cartesian "bar" ["A", "B"] [AggVal.count 1, AggVal.count 1]
              [(0, "#667eea"), (1, "#764ba2")]) false) := by
  refine ⟨rfl, by decide, rfl, rfl, rfl⟩

/-! ## Further claims on the hub and the chart widget -/

theorem getProp_isSome_of_mem_keys (s : Row) (k : String) (hk : k ∈ s.map Prod.fst) :
    ∃ v, getProp s k = some v := by
  cases h : getProp s k with
  | some v => exact ⟨v, rfl⟩
  | none => exact absurd hk ((lookup_eq_none_iff_not_mem_keys s k).1 h)

theorem handleBrushEnd_selectedData_ne_nil (hub : BrushHub) (chartId : String)
    (data : Option (List Row)) (params : BrushParams)
    (h : hub.selectedData ≠ some []) :
    (handleBrushEnd hub chartId data params).selectedData ≠ some [] := by
  have hclear : (if isThisChartActive hub chartId = true then clearBrush hub else hub).selectedData
      ≠ some [] := by
    split_ifs
    · simp [clearBrush]
    · exact h
  unfold handleBrushEnd
  cases hareas : params.areas with
  | none => exact hclear
  | some areas =>
    cases areas with
    | nil => exact hclear
    | cons brushArea others =>
      simp only
      split_ifs with hlen
      · simp only [onBrushSelect, ne_eq, Option.some.injEq]
        intro hnil
        rw [hnil] at hlen
        simp at hlen
      · exact h

theorem hubReachable_selectedData_ne_nil (hub : BrushHub) (h : HubReachable hub) :
    hub.selectedData ≠ some [] := by
  induction h with
  | initial => simp [initialHub]
  | brushEnd chartId data params _ ih =>
    exact handleBrushEnd_selectedData_ne_nil _ chartId data params ih

/-- C11, as the code has it: a widget shows its Filtered badge exactly when
the hub holds a selection whose owner is another widget.  The badge depends
neither on the widget's dataset nor on the result of the cross-filter: it is
shown for every dataset `D`, also when the filtered row list is empty or
contains every own row. -/
theorem C11_filtered_badge_follows_selection (hub : BrushHub) (chartId : String) :
    (showsFilteredBadge hub chartId = true ↔
      (∃ S, hub.selectedData = some S) ∧ hub.activeChartId ≠ some chartId)
    ∧ (∀ D S : List Row, hub.selectedData = some S → hub.activeChartId ≠ some chartId →
        (crossFilter D S = [] → showsFilteredBadge hub chartId = true)
        ∧ (crossFilter D S = D → showsFilteredBadge hub chartId = true)) := by
  have key : showsFilteredBadge hub chartId = true ↔
      (∃ S, hub.selectedData = some S) ∧ hub.activeChartId ≠ some chartId := by
    simp only [showsFilteredBadge, hasSelection, isThisChartActive, Bool.and_eq_true,
      Bool.not_eq_true', decide_eq_false_iff_not, Option.isSome_iff_exists, ne_eq]
  exact ⟨key, fun _ S hS hown =>
    ⟨fun _ => key.2 ⟨⟨S, hS⟩, hown⟩, fun _ => key.2 ⟨⟨S, hS⟩, hown⟩⟩⟩

/-- Witness of C11: chart `b` over the three example rows shows the badge
while chart `a` owns the North selection, whose cross-filter is empty. -/
theorem C11_filtered_badge_follows_selection_witness :
    northHub.selectedData = some [[("region", Val.str "North")]]
    ∧ northHub.activeChartId ≠ some "b"
    ∧ crossFilter exampleRows [[("region", Val.str "North")]] = []
    ∧ showsFilteredBadge northHub "b" = true :=
  ⟨rfl, by decide, by decide,
    ((C11_filtered_badge_follows_selection northHub "b").2 exampleRows
      [[("region", Val.str "North")]] rfl (by decide)).1 (by decide)⟩

/-- Counterexample to C11 as stated: for chart `b` over the three example rows
the cross-filter of the North selection is empty, and the cross-filter of the
East and West selection contains every own row; in both cases the Filtered
badge is shown. -/
theorem C11_counterexample_badge_without_narrowing :
    crossFilter exampleRows [[("region", Val.str "North")]] = []
    ∧ showsFilteredBadge northHub "b" = true
    ∧ crossFilter exampleRows [[("region", Val.str "East")], [("region", Val.str "West")]]
        = exampleRows
    ∧ showsFilteredBadge eastWestHub "b" = true := by
  refine ⟨by decide, by decide, by decide, by decide⟩

/-- C12, as the code has it: `onBrushSelect` validates nothing, so from every
hub state and for every caller id the publish of the empty row list leaves the
hub holding `(id, [])`.  The rejection sits in the caller: `handleBrushEnd`
never turns a hub without an empty selection into one with an empty
selection, so no hub state of a running dashboard holds a selection with zero
rows. -/
theorem C12_empty_publish_is_stored (hub : BrushHub) (id : String) :
    onBrushSelect hub id [] = { selectedData := some [], activeChartId := some id }
    ∧ (∀ (chartId : String) (data : Option (List Row)) (params : BrushParams),
        hub.selectedData ≠ some [] →
        (handleBrushEnd hub chartId data params).selectedData ≠ some [])
    ∧ (HubReachable hub → hub.selectedData ≠ some []) :=
  ⟨rfl, fun chartId data params h => handleBrushEnd_selectedData_ne_nil hub chartId data params h,
    hubReachable_selectedData_ne_nil hub⟩

/-- Witness of C12: the hub that chart `a` leaves after the brush `[0, 1]` on
the example rows is a state of the running dashboard, and its selection has
two rows. -/
theorem C12_empty_publish_is_stored_witness :
    HubReachable brushedHub
    ∧ brushedHub.selectedData ≠ some []
    ∧ onBrushSelect brushedHub "a" [] = { selectedData := some [], activeChartId := some "a" } :=
  have hr : HubReachable brushedHub :=
    HubReachable.brushEnd "a" (some exampleRows) { areas := some [{ coordRange := some (0, 1) }] }
      HubReachable.initial
  ⟨hr, (C12_empty_publish_is_stored brushedHub "a").2.2 hr,
    (C12_empty_publish_is_stored brushedHub "a").1⟩

/-- Counterexample to C12 as stated: the owner `a` publishing the empty list
does not end with the cleared hub, the other chart `b` publishing the empty
list does not leave the hub as it was, and in both cases the hub then holds a
selection with zero rows. -/
theorem C12_counterexample_empty_publish_accepted :
    onBrushSelect brushedHub "a" [] ≠ clearBrush brushedHub
    ∧ (onBrushSelect brushedHub "a" []).selectedData = some []
    ∧ onBrushSelect brushedHub "b" [] ≠ brushedHub
    ∧ (onBrushSelect brushedHub "b" []).selectedData = some []
    ∧ (onBrushSelect brushedHub "b" []).activeChartId = some "b" := by
  refine ⟨by decide, rfl, by decide, rfl, rfl⟩

/-- C13, the code at the failing input: chart `a` owns the selection it
published with the brush `[0, 1]`; its next brush reports an area whose
`coordRange` `[5, 7]` contains no index of the three-row dataset.  No row is
collected, and `handleBrushEnd` leaves the hub as it was, selection included;
the sibling branch for a brush that reports no area does clear it. -/
theorem C13_empty_range_keeps_owner_selection :
    HubReachable brushedHub
    ∧ isThisChartActive brushedHub "a" = true
    ∧ brushSelected (some exampleRows) { coordRange := some (5, 7) } = []
    ∧ handleBrushEnd brushedHub "a" (some exampleRows)
          { areas := some [{ coordRange := some (5, 7) }] }
        = brushedHub
    ∧ brushedHub.selectedData
        = some [[("region", Val.str "East"), ("sales", Val.num 10)],
                [("region", Val.str "West"), ("sales", Val.num 20)]]
    ∧ handleBrushEnd brushedHub "a" (some exampleRows) { areas := some [] }
        = { selectedData := none, activeChartId := none } := by
  refine ⟨?_, by decide, by decide, by decide, rfl, by decide⟩
  exact HubReachable.brushEnd "a" (some exampleRows)
    { areas := some [{ coordRange := some (0, 1) }] } HubReachable.initial

/-- C14: in the cross-filter match a missing key never matches: for every
candidate row `r` and selected row `s`, if `s` has a key `k` that `r` lacks,
then `r` does not match `s`. -/
theorem C14_missing_key_never_matches (r s : Row) (k : String)
    (hs : k ∈ s.map Prod.fst) (hr : k ∉ r.map Prod.fst) :
    rowMatches r s = false := by
  obtain ⟨v, hv⟩ := getProp_isSome_of_mem_keys s k hs
  have hnone : getProp r k = none := (lookup_eq_none_iff_not_mem_keys r k).2 hr
  rw [Bool.eq_false_iff]
  intro hm
  have h := (rowMatches_iff r s).1 hm k hs
  rw [hv, hnone] at h
  cases h

/-- Witness of C14: a row with sales only does not match a selected row with a
region. -/
theorem C14_missing_key_never_matches_witness :
    "region" ∈ ([("region", Val.str "East")] : Row).map Prod.fst
    ∧ "region" ∉ ([("sales", Val.num 10)] : Row).map Prod.fst
    ∧ rowMatches [("sales", Val.num 10)] [("region", Val.str "East")] = false :=
  ⟨by decide, by decide,
    C14_missing_key_never_matches [("sales", Val.num 10)] [("region", Val.str "East")] "region"
      (by decide) (by decide)⟩

/-- C15: from every hub state, after `onBrushSelect(a, rowsA)` and then
`onBrushSelect(b, rowsB)` (for every `a` and `b`, so for `a ≠ b`) the hub
holds exactly `(b, rowsB)`: nothing of the first publish is left. -/
theorem C15_second_publish_evicts_first (hub : BrushHub) (a b : String)
    (rowsA rowsB : List Row) :
    onBrushSelect (onBrushSelect hub a rowsA) b rowsB
      = { selectedData := some rowsB, activeChartId := some b }
    ∧ (onBrushSelect (onBrushSelect hub a rowsA) b rowsB).selectedData = some rowsB
    ∧ (onBrushSelect (onBrushSelect hub a rowsA) b rowsB).activeChartId = some b :=
  ⟨rfl, rfl, rfl⟩

/-- C16: from every hub state `clearBrush` yields the state with no selection
(`selectedData` and `activeChartId` both `null`), and applying it twice yields
the same state as applying it once. -/
theorem C16_clear_is_idempotent (hub : BrushHub) :
    clearBrush hub = { selectedData := none, activeChartId := none }
    ∧ (clearBrush hub).selectedData = none
    ∧ (clearBrush hub).activeChartId = none
    ∧ clearBrush (clearBrush hub) = clearBrush hub :=
  ⟨rfl, rfl, rfl, rfl⟩

/-! ## Further claims on the drill-down navigator -/

/-- C17: opening the navigator with drill data whose drill path is non-empty,
from any previous navigator state, yields the stack `[Frame0]` and
`currentLevel = 0`, where `Frame0` has level 0, carries the drill data itself
(the clicked point together with the whole source dataset), has
`path = drillPath[0]` and no filter. -/
theorem C17_open_initialises_stack (drillData : Params) (p : List DrillLevel) (prev : NavState)
    (hp : drillData.drillPath = some p) (hne : p ≠ []) :
    ∃ level0,
      p[0]? = some level0
      ∧ openEffect (some drillData) true prev
        = { drillStack := [{ level := 0, data := drillData, path := some level0,
                             filter := none }],
            currentLevel := 0 }
      ∧ (∀ f ∈ (openEffect (some drillData) true prev).drillStack,
          f.data.sourceData = drillData.sourceData ∧ f.data.name = drillData.name
          ∧ f.data.dataName = drillData.dataName) := by
  cases p with
  | nil => exact absurd rfl hne
  | cons level0 others =>
    refine ⟨level0, List.getElem?_cons_zero, ?_, ?_⟩
    · simp only [openEffect, hp, Option.some_bind, List.getElem?_cons_zero]
    · intro f hf
      simp only [openEffect, List.mem_singleton] at hf
      subst hf
      exact ⟨rfl, rfl, rfl⟩

/-- Witness of C17: the two-level example opened over the stack that an
earlier session on the three-level example left behind. -/
theorem C17_open_initialises_stack_witness :
    twoLevelDrill.drillPath = some [exampleLevel "region", exampleLevel "category"]
    ∧ [exampleLevel "region", exampleLevel "category"] ≠ []
    ∧ ∃ level0,
      [exampleLevel "region", exampleLevel "category"][0]? = some level0
      ∧ openEffect (some twoLevelDrill) true threeLevelEastA
        = { drillStack := [{ level := 0, data := twoLevelDrill, path := some level0,
                             filter := none }],
            currentLevel := 0 }
      ∧ (∀ f ∈ (openEffect (some twoLevelDrill) true threeLevelEastA).drillStack,
          f.data.sourceData = twoLevelDrill.sourceData ∧ f.data.name = twoLevelDrill.name
          ∧ f.data.dataName = twoLevelDrill.dataName) :=
  ⟨rfl, by decide,
    C17_open_initialises_stack twoLevelDrill [exampleLevel "region", exampleLevel "category"]
      threeLevelEastA rfl (by decide)⟩

/-- C18: for every open navigator state with `currentLevel > 0`, `handleBack`
decrements `currentLevel` by one and leaves as stack exactly the first
`new currentLevel + 1` frames of the old stack; only the top frame is
discarded. -/
theorem C18_ascend_truncates_stack (drillData : Params) (s : NavState)
    (h : Reachable drillData s) (hpos : 0 < s.currentLevel) :
    (handleBack s).currentLevel + 1 = s.currentLevel
    ∧ (handleBack s).drillStack = s.drillStack.take ((handleBack s).currentLevel + 1)
    ∧ (handleBack s).drillStack.length = (handleBack s).currentLevel + 1
    ∧ ∃ top, s.drillStack = (handleBack s).drillStack ++ [top] := by
  have inv := reachable_navInv drillData s h
  have hlen := inv.len
  have hb : handleBack s
      = { currentLevel := s.currentLevel - 1, drillStack := s.drillStack.dropLast } := by
    simp only [handleBack, hpos, gt_iff_lt, if_true]
  have hdl : s.drillStack.dropLast = s.drillStack.take s.currentLevel := by
    rw [List.dropLast_eq_take, hlen]; rfl
  have hne : s.drillStack ≠ [] := by
    intro e
    rw [e] at hlen
    simp at hlen
  rw [hb]
  refine ⟨by simp only; omega, ?_, ?_, ?_⟩
  · simp only
    rw [hdl]
    congr 1
    omega
  · simp only [List.length_dropLast, hlen]
    omega
  · exact ⟨s.drillStack.getLast hne, (List.dropLast_append_getLast hne).symm⟩

/-- Witness of C18: Back at level 2 of the three-level example gives the state
after the click on East. -/
theorem C18_ascend_truncates_stack_witness :
    Reachable threeLevelDrill threeLevelEastA
    ∧ 0 < threeLevelEastA.currentLevel
    ∧ handleBack threeLevelEastA = threeLevelEast
    ∧ (handleBack threeLevelEastA).currentLevel + 1 = threeLevelEastA.currentLevel
    ∧ (handleBack threeLevelEastA).drillStack
        = threeLevelEastA.drillStack.take ((handleBack threeLevelEastA).currentLevel + 1)
    ∧ (handleBack threeLevelEastA).drillStack.length
        = (handleBack threeLevelEastA).currentLevel + 1
    ∧ ∃ top, threeLevelEastA.drillStack = (handleBack threeLevelEastA).drillStack ++ [top] :=
  have hr : Reachable threeLevelDrill threeLevelEastA :=
    Reachable.step (NavAction.descend (clickOn "A"))
      (Reachable.step (NavAction.descend (clickOn "East")) (Reachable.opened initialNav) rfl)
      rfl
  ⟨hr, by decide, rfl,
    C18_ascend_truncates_stack threeLevelDrill threeLevelEastA hr (by decide)⟩

/-- C19: at the leaf level descend is a no-op: for every navigator state with
`currentLevel = drillPath.length - 1` and every click, `handleDrillDown`
returns the state unchanged and raises nothing, `canDrillDeeper` is false, and
a chart shown by the modal has no click handler. -/
theorem C19_leaf_descend_is_noop (drillData : Params) (p : List DrillLevel) (s : NavState)
    (params : Params) (hp : drillData.drillPath = some p)
    (hleaf : (s.currentLevel : Int) = (p.length : Int) - 1) :
    handleDrillDown drillData s params = Except.ok s
    ∧ canDrillDeeper drillData s = false
    ∧ (∀ (option : DrillChart) (clickable : Bool),
        modalBody drillData s = Except.ok (ModalBody.chart option clickable) →
        clickable = false) := by
  have hcan : canDrillDeeper drillData s = false := by
    rw [Bool.eq_false_iff]
    intro hc
    obtain ⟨q, hq, hlt⟩ := (canDrillDeeper_iff drillData s).1 hc
    rw [hp] at hq
    cases hq
    omega
  refine ⟨?_, hcan, ?_⟩
  · simp only [handleDrillDown, hcan, Bool.not_false, if_true]
  · intro option clickable hm
    unfold modalBody at hm
    cases hd : displayChart drillData s with
    | error e => rw [hd] at hm; cases hm
    | ok c =>
      rw [hd] at hm
      cases c with
      | none => simp only at hm; cases hm
      | some o =>
        simp only [hcan] at hm
        cases hm
        rfl

/-- Witness of C19, the worked example: with the single level region, the
click on East keeps level 0 and a stack of length 1, and the chart of the
modal has no click handler. -/
theorem C19_leaf_descend_is_noop_witness :
    oneLevelDrill.drillPath = some [exampleLevel "region"]
    ∧ ((openEffect (some oneLevelDrill) true initialNav).currentLevel : Int)
        = ([exampleLevel "region"].length : Int) - 1
    ∧ handleDrillDown oneLevelDrill (openEffect (some oneLevelDrill) true initialNav)
          (clickOn "East")
        = Except.ok (openEffect (some oneLevelDrill) true initialNav)
    ∧ (openEffect (some oneLevelDrill) true initialNav).currentLevel = 0
    ∧ (openEffect (some oneLevelDrill) true initialNav).drillStack.length = 1
    ∧ modalBody oneLevelDrill (openEffect (some oneLevelDrill) true initialNav)
        = Except.ok (ModalBody.chart
            (DrillChart.cartesian "bar" ["East", "West"] [AggVal.count 2, AggVal.count 1]
              [(0, "#667eea"), (1, "#764ba2")]) false) :=
  ⟨rfl, by decide,
    (C19_leaf_descend_is_noop oneLevelDrill [exampleLevel "region"]
      (openEffect (some oneLevelDrill) true initialNav) (clickOn "East") rfl (by decide)).1,
    rfl, rfl, rfl⟩

/-- C20: at level 0 ascend is a no-op: for every navigator state with
`currentLevel = 0`, `handleBack` returns the state with `drillStack` and
`currentLevel` unchanged. -/
theorem C20_ascend_at_root_is_noop (s : NavState) (h0 : s.currentLevel = 0) :
    handleBack s = s
    ∧ (handleBack s).drillStack = s.drillStack
    ∧ (handleBack s).currentLevel = s.currentLevel := by
  have hb : handleBack s = s := by
    simp only [handleBack, h0, gt_iff_lt, Nat.lt_irrefl, if_false]
  rw [hb]
  exact ⟨rfl, rfl, rfl⟩

/-- Witness of C20: Back on the freshly opened two-level example. -/
theorem C20_ascend_at_root_is_noop_witness :
    (openEffect (some twoLevelDrill) true initialNav).currentLevel = 0
    ∧ handleBack (openEffect (some twoLevelDrill) true initialNav)
        = openEffect (some twoLevelDrill) true initialNav :=
  ⟨rfl, (C20_ascend_at_root_is_noop (openEffect (some twoLevelDrill) true initialNav) rfl).1⟩

/-! ## Last claims on the drill-down navigator -/

theorem handleBack_after_append (stack : List Frame) (f : Frame) (level : Nat) :
    handleBack { drillStack := stack ++ [f], currentLevel := level + 1 }
      = { drillStack := stack, currentLevel := level } := by
  simp [handleBack]

/-- C21: for every open navigator state in which descend is valid
(`currentLevel < drillPath.length - 1`) and every two clicks `a` and `b`, the
state after descend on `a`, Back, descend on `b` is the state after descend on
`b` alone; its stack is the old stack followed by at most the one frame made
for `b`, so no frame of the abandoned branch remains. -/
theorem C21_rebranching_keeps_no_history (drillData : Params) (s : NavState)
    (a b : Params) (p : List DrillLevel)
    (h : Reachable drillData s) (hp : drillData.drillPath = some p)
    (hlt : (s.currentLevel : Int) < (p.length : Int) - 1) :
    ∃ t u,
      handleDrillDown drillData s a = Except.ok t
      ∧ handleDrillDown drillData (handleBack t) b = Except.ok u
      ∧ handleDrillDown drillData s b = Except.ok u
      ∧ s.drillStack <+: u.drillStack
      ∧ u.drillStack.length ≤ s.drillStack.length + 1
      ∧ (∀ f ∈ u.drillStack, f ∈ s.drillStack ∨ f.data = { b with chartConfig := f.data.chartConfig }) := by
  have inv := reachable_navInv drillData s h
  cases hsrc : drillData.sourceData with
  | none =>
    have hnoop : ∀ x : Params, handleDrillDown drillData s x = Except.ok s := by
      intro x
      simp only [handleDrillDown, hsrc, ite_self]
    have h0 : ¬ s.currentLevel > 0 := by
      intro hpos
      obtain ⟨_, rows, _, _, hr⟩ := inv.deep hpos
      rw [hsrc] at hr
      cases hr
    have hb : handleBack s = s := by simp only [handleBack, h0, if_false]
    refine ⟨s, s, hnoop a, ?_, hnoop b, List.prefix_refl _, Nat.le_succ _, ?_⟩
    · rw [hb]; exact hnoop b
    · intro f hf; exact Or.inl hf
  | some rows =>
    obtain ⟨_, _, _, _, _, _, hda⟩ := descend_on_reachable drillData s a p rows h hp hlt hsrc
    obtain ⟨_, _, _, _, _, _, hdb⟩ := descend_on_reachable drillData s b p rows h hp hlt hsrc
    refine ⟨_, _, hda, ?_, hdb, List.prefix_append _ _, ?_, ?_⟩
    · rw [handleBack_after_append]
      exact hdb
    · simp
    · intro f hf
      simp only [List.mem_append, List.mem_singleton] at hf
      rcases hf with hf | hf
      · exact Or.inl hf
      · right
        rw [hf]

/-- Witness of C21: on the two-level example, the click on West, Back and the
click on East give the state after the click on East alone. -/
theorem C21_rebranching_keeps_no_history_witness :
    Reachable twoLevelDrill (openEffect (some twoLevelDrill) true initialNav)
    ∧ twoLevelDrill.drillPath = some [exampleLevel "region", exampleLevel "category"]
    ∧ ((openEffect (some twoLevelDrill) true initialNav).currentLevel : Int)
        < ([exampleLevel "region", exampleLevel "category"].length : Int) - 1
    ∧ ∃ t u,
      handleDrillDown twoLevelDrill (openEffect (some twoLevelDrill) true initialNav)
          (clickOn "West") = Except.ok t
      ∧ handleDrillDown twoLevelDrill (handleBack t) (clickOn "East") = Except.ok u
      ∧ handleDrillDown twoLevelDrill (openEffect (some twoLevelDrill) true initialNav)
          (clickOn "East") = Except.ok u
      ∧ (openEffect (some twoLevelDrill) true initialNav).drillStack <+: u.drillStack
      ∧ u.drillStack.length
          ≤ (openEffect (some twoLevelDrill) true initialNav).drillStack.length + 1
      ∧ (∀ f ∈ u.drillStack,
          f ∈ (openEffect (some twoLevelDrill) true initialNav).drillStack
          ∨ f.data = { clickOn "East" with chartConfig := f.data.chartConfig }) :=
  ⟨Reachable.opened initialNav, rfl, by decide,
    C21_rebranching_keeps_no_history twoLevelDrill
      (openEffect (some twoLevelDrill) true initialNav) (clickOn "West") (clickOn "East")
      [exampleLevel "region", exampleLevel "category"] (Reachable.opened initialNav) rfl
      (by decide)⟩

/-- C22: for every navigator state and every breadcrumb index
`idx ≥ currentLevel` (the current level or a deeper one), the click on that
breadcrumb leaves `drillStack` and `currentLevel` unchanged. -/
theorem C22_breadcrumb_at_or_below_is_noop (s : NavState) (idx : Nat)
    (hidx : s.currentLevel ≤ idx) :
    breadcrumbClick s idx = s
    ∧ (breadcrumbClick s idx).drillStack = s.drillStack
    ∧ (breadcrumbClick s idx).currentLevel = s.currentLevel := by
  have hb : breadcrumbClick s idx = s := by
    have hn : ¬ idx < s.currentLevel := by omega
    simp only [breadcrumbClick, hn, if_false]
  rw [hb]
  exact ⟨rfl, rfl, rfl⟩

/-- Witness of C22: at level 1 of the three-level example, the clicks on the
breadcrumbs 1 and 2 change nothing. -/
theorem C22_breadcrumb_at_or_below_is_noop_witness :
    threeLevelEast.currentLevel ≤ 1
    ∧ threeLevelEast.currentLevel ≤ 2
    ∧ breadcrumbClick threeLevelEast 1 = threeLevelEast
    ∧ breadcrumbClick threeLevelEast 2 = threeLevelEast :=
  ⟨by decide, by decide,
    (C22_breadcrumb_at_or_below_is_noop threeLevelEast 1 (by decide)).1,
    (C22_breadcrumb_at_or_below_is_noop threeLevelEast 2 (by decide)).1⟩

/-- C26: in every navigator state reachable from the opening of a session
with a non-empty drill path, for every index `i ≤ currentLevel` the frame
`drillStack[i]` exists, has `level = i` and `path = drillPath[i]`; and for
`i ≥ 1` it records a filter whose field is `drillPath[i - 1].field`. -/
theorem C26_frames_sit_at_their_level (drillData : Params) (p : List DrillLevel)
    (s : NavState) (hp : drillData.drillPath = some p) (hne : p ≠ [])
    (h : Reachable drillData s) :
    ∀ i : Nat, i ≤ s.currentLevel →
      ∃ f level,
        s.drillStack[i]? = some f ∧ p[i]? = some level
        ∧ f.level = i ∧ f.path = some level
        ∧ (1 ≤ i → ∃ fl above,
            f.filter = some fl ∧ p[i - 1]? = some above ∧ fl.field = above.field) := by
  intro i hi
  have inv := reachable_navInv drillData s h
  have hlen := inv.len
  have hin : i < s.drillStack.length := by omega
  have hf : s.drillStack[i]? = some s.drillStack[i] := List.getElem?_eq_getElem hin
  have hpl : 0 < p.length := List.length_pos_of_ne_nil hne
  have hip : i < p.length := by
    by_cases h0 : 0 < s.currentLevel
    · obtain ⟨q, _, hq, hlt, _⟩ := inv.deep h0
      rw [hp] at hq
      cases hq
      omega
    · omega
  have hlevel : p[i]? = some p[i] := List.getElem?_eq_getElem hip
  obtain ⟨h1, h2⟩ := inv.frames i _ hf
  rw [hp, Option.some_bind, hlevel] at h2
  refine ⟨s.drillStack[i], p[i], hf, hlevel, h1, h2, ?_⟩
  intro hi1
  obtain ⟨j, rfl⟩ : ∃ j, i = j + 1 := ⟨i - 1, by omega⟩
  obtain ⟨cur, fl, hcur, hfl, hfield⟩ := inv.filters j _ hf
  rw [hp, Option.some_bind] at hcur
  exact ⟨fl, cur, hfl, by simpa using hcur, hfield⟩

/-- Witness of C26: the three-level example after the clicks on East and A. -/
theorem C26_frames_sit_at_their_level_witness :
    threeLevelDrill.drillPath
        = some [exampleLevel "region", exampleLevel "category", exampleLevel "product"]
    ∧ [exampleLevel "region", exampleLevel "category", exampleLevel "product"] ≠ []
    ∧ Reachable threeLevelDrill threeLevelEastA
    ∧ ∀ i : Nat, i ≤ threeLevelEastA.currentLevel →
      ∃ f level,
        threeLevelEastA.drillStack[i]? = some f
        ∧ [exampleLevel "region", exampleLevel "category", exampleLevel "product"][i]?
            = some level
        ∧ f.level = i ∧ f.path = some level
        ∧ (1 ≤ i → ∃ fl above,
            f.filter = some fl
            ∧ [exampleLevel "region", exampleLevel "category", exampleLevel "product"][i - 1]?
                = some above
            ∧ fl.field = above.field) :=
  have hr : Reachable threeLevelDrill threeLevelEastA :=
    Reachable.step (NavAction.descend (clickOn "A"))
      (Reachable.step (NavAction.descend (clickOn "East")) (Reachable.opened initialNav) rfl)
      rfl
  ⟨rfl, by decide, hr,
    C26_frames_sit_at_their_level threeLevelDrill
      [exampleLevel "region", exampleLevel "category", exampleLevel "product"]
      threeLevelEastA rfl (by decide) hr⟩

/-! ## Last claims on the chart widget -/

/-- C23: with a drill-down entry point `onDrillDown`, `handleChartClick` calls
it exactly when the widget's configured drill path is non-empty; the argument
is the click parameters with `drillPath` set to the configured path and
`sourceData` set to the widget's `data` property, the full dataset, whatever
the hub holds; with an empty drill path nothing is called. -/
theorem C23_click_forwards_full_dataset {β : Type} (localDrillPath : List DrillLevel)
    (onDrillDown : Params → β) (data : Option (List Row)) (params : Params) :
    ((handleChartClick localDrillPath (some onDrillDown) data params).isSome = true
        ↔ localDrillPath ≠ [])
    ∧ (localDrillPath ≠ [] →
        handleChartClick localDrillPath (some onDrillDown) data params
          = some (onDrillDown
              { params with drillPath := some localDrillPath, sourceData := data }))
    ∧ (localDrillPath = [] →
        handleChartClick localDrillPath (some onDrillDown) data params = none) := by
  cases localDrillPath with
  | nil => simp [handleChartClick]
  | cons l ls => simp [handleChartClick]

/-- Witness of C23: chart `b` over the three example rows, cross-filtered to
the two East rows by the selection of chart `a`, forwards a click with all
three rows as `sourceData`. -/
theorem C23_click_forwards_full_dataset_witness :
    [exampleLevel "region", exampleLevel "category"] ≠ []
    ∧ crossFilter exampleRows [[("region", Val.str "East")]]
        = [[("region", Val.str "East"), ("sales", Val.num 10)],
           [("region", Val.str "East"), ("sales", Val.num 5)]]
    ∧ handleChartClick [exampleLevel "region", exampleLevel "category"]
          (some (fun drillData : Params => drillData)) (some exampleRows) (clickOn "East")
        = some { clickOn "East" with
                 drillPath := some [exampleLevel "region", exampleLevel "category"],
                 sourceData := some exampleRows }
    ∧ handleChartClick ([] : List DrillLevel)
          (some (fun drillData : Params => drillData)) (some exampleRows) (clickOn "East")
        = none :=
  ⟨by decide, by decide,
    (C23_click_forwards_full_dataset [exampleLevel "region", exampleLevel "category"]
      (fun drillData : Params => drillData) (some exampleRows) (clickOn "East")).2.1 (by decide),
    (C23_click_forwards_full_dataset ([] : List DrillLevel)
      (fun drillData : Params => drillData) (some exampleRows) (clickOn "East")).2.2 rfl⟩

/-- C28: for every widget dataset `D`, every hub state and every
configuration, the filtered configuration has the same other fields as the
input, the same series with the same other fields, and is either the input
itself or the input with one row list `R` placed in every series, where `R`
is a sublist of `D`: rows of `D` in the order of `D`. -/
theorem C28_cross_filter_frames_config {δ σ ρ : Type} (hub : BrushHub) (chartId : String)
    (D : List Row) (chartConfig : ChartConfig δ σ ρ) :
    (filteredChartConfig hub chartId (some D) chartConfig).others = chartConfig.others
    ∧ (filteredChartConfig hub chartId (some D) chartConfig).series.map
          (List.map (fun s => s.others))
        = chartConfig.series.map (List.map (fun s => s.others))
    ∧ (filteredChartConfig hub chartId (some D) chartConfig = chartConfig
        ∨ ∃ R : List Row, R.Sublist D
            ∧ filteredChartConfig hub chartId (some D) chartConfig
              = { chartConfig with
                  series := chartConfig.series.map
                    (List.map (fun s => { s with data := SeriesData.rows R })) }) := by
  unfold filteredChartConfig
  cases hh : hasSelection hub chartId with
  | false => exact ⟨rfl, rfl, Or.inl rfl⟩
  | true =>
    cases hs : hub.selectedData with
    | none => exact ⟨rfl, rfl, Or.inl rfl⟩
    | some S =>
      refine ⟨rfl, ?_, Or.inr ⟨if (crossFilter D S).length > 0 then crossFilter D S else D, ?_, rfl⟩⟩
      · simp only [Option.map_map]
        congr 1
        funext series
        simp [List.map_map, Function.comp]
      · split_ifs
        · exact List.filter_sublist D
        · exact List.Sublist.refl D

/-- C29: a selected row with no keys matches every candidate row: when the
selection contains the row with the empty key set, the cross-filter keeps
every row of the dataset `D`, and a widget that does not own the selection
places all of `D` in every series. -/
theorem C29_keyless_selected_row_keeps_all {δ σ ρ : Type} (D S : List Row)
    (hempty : ([] : Row) ∈ S) :
    (∀ item : Row, rowMatches item [] = true)
    ∧ crossFilter D S = D
    ∧ (∀ (hub : BrushHub) (chartId : String) (chartConfig : ChartConfig δ σ ρ),
        hub.selectedData = some S → hub.activeChartId ≠ some chartId →
        filteredChartConfig hub chartId (some D) chartConfig
          = { chartConfig with
              series := chartConfig.series.map
                (List.map (fun s => { s with data := SeriesData.rows D })) }) := by
  have hall : ∀ item : Row, rowMatches item [] = true := by
    intro item
    simp [rowMatches, objectKeys]
  have hcf : crossFilter D S = D := by
    unfold crossFilter
    rw [List.filter_eq_self]
    intro item _
    rw [List.any_eq_true]
    exact ⟨[], hempty, hall item⟩
  refine ⟨hall, hcf, ?_⟩
  intro hub chartId chartConfig hsel hown
  have h1 : hasSelection hub chartId = true := by
    simp [hasSelection, isThisChartActive, hsel, hown]
  simp only [filteredChartConfig, h1, hsel, hcf, ite_self]

/-- Witness of C29: a selection made of one row without keys keeps all three
rows of the example. -/
theorem C29_keyless_selected_row_keeps_all_witness :
    ([] : Row) ∈ [([] : Row)]
    ∧ crossFilter exampleRows [([] : Row)] = exampleRows :=
  ⟨by decide,
    (@C29_keyless_selected_row_keeps_all Unit Unit Unit
      exampleRows [([] : Row)] (by decide)).2.1⟩

/-! ## Drag and drop, import and sharing -/

theorem perm_cons_eraseIdx {α : Type} (items : List α) (source : Nat)
    (h : source < items.length) :
    (items[source] :: items.eraseIdx source).Perm items := by
  induction items generalizing source with
  | nil => simp at h
  | cons a as ih =>
    cases source with
    | zero => simp
    | succ n =>
      have hn : n < as.length := by simpa using h
      simp only [List.getElem_cons_succ, List.eraseIdx_cons_succ]
      exact (List.Perm.swap a as[n] (as.eraseIdx n)).trans ((ih n hn).cons a)

theorem handleDragEnd_eq_movedItems {α : Type} (items : List α) (source destination : Nat)
    (h : source < items.length) :
    handleDragEnd items { source := source, destination := some destination }
      = some ((movedItems items source destination).map some) := by
  have hs : items[source]? = some items[source] := List.getElem?_eq_getElem h
  have hm : (items.map some)[source]? = some (some items[source]) := by
    rw [List.getElem?_map, hs]; rfl
  simp only [handleDragEnd, movedItems, hm, hs, Option.join, List.map_append, List.map_cons,
    List.map_take, List.map_drop, Option.some.injEq]
  have he : (items.map some).eraseIdx source = (items.eraseIdx source).map some := by
    clear hs hm
    induction items generalizing source with
    | nil => rfl
    | cons a as ih =>
      cases source with
      | zero => rfl
      | succ n =>
        have hn : n < as.length := by simpa using h
        simp only [List.map_cons, List.eraseIdx_cons_succ, ih n hn]
  rw [he]
  rfl

/-- C27: for every item list and every valid source and destination index,
the list `handleDragEnd` passes to `onReorder` holds no `undefined`, is a
permutation of the input of the same length, has the dragged item at the
destination index, and is the input again once the dragged item is taken out
of both, so all other items keep their relative order; for a drop without
destination `onReorder` is not called. -/
theorem C27_drag_and_drop_moves_one_item {α : Type} (items : List α) (source destination : Nat)
    (hsource : source < items.length) (hdestination : destination < items.length) :
    (∃ moved : List α,
      handleDragEnd items { source := source, destination := some destination }
        = some (moved.map some)
      ∧ moved.Perm items
      ∧ moved.length = items.length
      ∧ moved[destination]? = items[source]?
      ∧ moved.eraseIdx destination = items.eraseIdx source)
    ∧ handleDragEnd items { source := source, destination := none } = none := by
  refine ⟨⟨movedItems items source destination,
    handleDragEnd_eq_movedItems items source destination hsource, ?_, ?_, ?_, ?_⟩, rfl⟩
  all_goals
    have hs : items[source]? = some items[source] := List.getElem?_eq_getElem hsource
    have hel : (items.eraseIdx source).length = items.length - 1 := List.length_eraseIdx_of_lt hsource
    have htl : ((items.eraseIdx source).take destination).length = destination := by
      rw [List.length_take, hel]; omega
    simp only [movedItems, hs]
  · refine List.perm_middle.trans ?_
    rw [List.take_append_drop]
    exact perm_cons_eraseIdx items source hsource
  · simp only [List.length_append, List.length_cons, List.length_take, List.length_drop, hel]
    omega
  · rw [List.getElem?_append_right (by omega), htl, Nat.sub_self]
    exact List.getElem?_cons_zero
  · rw [List.eraseIdx_append_of_length_le (by omega), htl, Nat.sub_self]
    simp only [List.eraseIdx_cons_zero, List.take_append_drop]

/-- Witness of C27: the first of four items dropped at index 2. -/
theorem C27_drag_and_drop_moves_one_item_witness :
    0 < [1, 2, 3, 4].length
    ∧ 2 < [1, 2, 3, 4].length
    ∧ handleDragEnd [1, 2, 3, 4] { source := 0, destination := some 2 }
        = some [some 2, some 3, some 1, some 4]
    ∧ (∃ moved : List Nat,
        handleDragEnd [1, 2, 3, 4] { source := 0, destination := some 2 }
          = some (moved.map some)
        ∧ moved.Perm [1, 2, 3, 4]
        ∧ moved.length = [1, 2, 3, 4].length
        ∧ moved[2]? = [1, 2, 3, 4][0]?
        ∧ moved.eraseIdx 2 = [1, 2, 3, 4].eraseIdx 0) :=
  ⟨by decide, by decide, by decide,
    (C27_drag_and_drop_moves_one_item [1, 2, 3, 4] 0 2 (by decide) (by decide)).1⟩

/-- C24, the code at the failing input, and for every file with an `items`
array: with a data source selected, `handleImport` passes the array itself to
`handleImportConfig`, whose destructuring finds neither `items` nor `theme` in
it; the loop raises, no insight is created and no theme is stored.  Called
with the object `{ items, theme }` that its comment announces, the same
function creates one pinned insight per item and stores the theme when the
theme is truthy. -/
theorem C24_import_passes_array_not_config :
    importOnDashboard (some "ds1") exampleFile
      = some { created := [], storedTheme := none, alerts := [],
               raised := some JsError.typeError }
    ∧ (∀ (items : List ConfigItem) (theme : Option JsonValue),
        importOnDashboard (some "ds1") { items := some items, theme := theme }
          = some { created := [], storedTheme := none, alerts := [],
                   raised := some JsError.typeError })
    ∧ (∀ (items : List ConfigItem) (theme : Option JsonValue),
        (handleImportConfig (some "ds1") (ImportArg.object (some items) theme)).created.length
          = items.length
        ∧ (handleImportConfig (some "ds1") (ImportArg.object (some items) theme)).storedTheme
          = (if jsonTruthy theme then theme else none)
        ∧ (handleImportConfig (some "ds1") (ImportArg.object (some items) theme)).raised
          = none)
    ∧ (handleImportConfig (some "ds1")
          (ImportArg.object exampleFile.items exampleFile.theme)).created.length = 2
    ∧ (handleImportConfig (some "ds1")
          (ImportArg.object exampleFile.items exampleFile.theme)).storedTheme
        = exampleFile.theme := by
  refine ⟨by decide, ?_, ?_, by decide, by decide⟩
  · intro items theme
    rfl
  · intro items theme
    simp [handleImportConfig]

/-- C25, the code at the failing input.  Over `yearRows` the level-0 chart
shows the pair `("2020", 1)`; the descent on the name "2020" filters the
source data to no row, because the year of the row is the number 2020 and the
filter compares with `===`.  Over `drillRows`, whose regions are strings, the
pair `("East", 2)` and the two rows of the descent on "East" agree. -/
theorem C25_numeric_field_descends_to_no_row :
    displayChart yearDrill (openEffect (some yearDrill) true initialNav)
      = Except.ok (some (DrillChart.cartesian "bar" ["2020", "2021"]
          [AggVal.count 1, AggVal.count 1] [(0, "#667eea"), (1, "#764ba2")]))
    ∧ ("2020", AggVal.count 1) ∈ chartData yearRows "year"
    ∧ (filterSource yearRows "year" (jsOr (clickOn "2020").name (clickOn "2020").dataName)).length
        = 0
    ∧ handleDrillDown yearDrill (openEffect (some yearDrill) true initialNav) (clickOn "2020")
        = Except.ok yearDescended
    ∧ ("East", AggVal.count 2) ∈ chartData drillRows "region"
    ∧ (filterSource drillRows "region" (jsOr (clickOn "East").name (clickOn "East").dataName)).length
        = 2 := by
  refine ⟨rfl, by decide, by decide, rfl, by decide, by decide⟩

theorem foldl_insert_mem (l acc : List String) (e : String) :
    e ∈ l.foldl (fun seen x => if x ∈ seen then seen else seen ++ [x]) acc
      ↔ e ∈ acc ∨ e ∈ l := by
  induction l generalizing acc with
  | nil => simp
  | cons a as ih =>
    rw [List.foldl_cons, ih]
    by_cases ha : a ∈ acc
    · rw [if_pos ha]
      constructor
      · rintro (h | h)
        · exact Or.inl h
        · exact Or.inr (List.mem_cons_of_mem a h)
      · rintro (h | h)
        · exact Or.inl h
        · rcases List.mem_cons.1 h with rfl | h
          · exact Or.inl ha
          · exact Or.inr h
    · rw [if_neg ha]
      simp only [List.mem_append, List.mem_singleton, List.mem_cons]
      tauto

theorem foldl_insert_nodup (l acc : List String) (h : acc.Nodup) :
    (l.foldl (fun seen x => if x ∈ seen then seen else seen ++ [x]) acc).Nodup := by
  induction l generalizing acc with
  | nil => exact h
  | cons a as ih =>
    rw [List.foldl_cons]
    apply ih
    by_cases ha : a ∈ acc
    · rw [if_pos ha]; exact h
    · rw [if_neg ha]
      exact List.Nodup.append h (List.nodup_singleton a) (by simpa using ha)

theorem mem_setToArray (l : List String) (e : String) : e ∈ setToArray l ↔ e ∈ l := by
  unfold setToArray
  rw [foldl_insert_mem]
  simp

theorem setToArray_nodup (l : List String) : (setToArray l).Nodup :=
  foldl_insert_nodup l [] List.nodup_nil

theorem jsTrim_visible (s : String) (h : jsTrim s ≠ "") :
    ∃ c ∈ (jsTrim s).data, isJsWhitespace c = false := by
  have hne : (s.data.dropWhile isJsWhitespace).reverse.dropWhile isJsWhitespace ≠ [] := by
    intro e
    apply h
    simp only [jsTrim, e, List.reverse_nil]
  refine ⟨((s.data.dropWhile isJsWhitespace).reverse.dropWhile isJsWhitespace).head hne, ?_,
    List.head_dropWhile_not isJsWhitespace _ hne⟩
  simp only [jsTrim, List.mem_reverse]
  exact List.head_mem hne

theorem mem_newEmails (emails e : String) :
    e ∈ newEmails emails ↔ e ≠ "" ∧ ∃ piece ∈ jsSplitComma emails, e = jsTrim piece := by
  simp only [newEmails, List.mem_filter, List.mem_map, decide_eq_true_eq]
  constructor
  · rintro ⟨⟨piece, hp, rfl⟩, hne⟩
    exact ⟨hne, piece, hp, rfl⟩
  · rintro ⟨hne, piece, hp, rfl⟩
    exact ⟨⟨piece, hp, rfl⟩, hne⟩

/-- C30: for every template found under the id, with stored list `shared_with`
(or none), and every comma-separated input, the update sets `is_shared` and
stores a list that contains every previously stored address and the trimmed
form of every input piece that is not blank, in which every entry that was
not stored before is a non-empty trimmed input piece with a visible
character, and in which no address occurs twice. -/
theorem C30_share_merges_recipients (myTemplates : List Template) (template : Template)
    (id emails : String)
    (hfind : myTemplates.find? (fun t => decide (t.id = id)) = some template) :
    ∃ update : TemplateUpdate,
      shareTemplate myTemplates id emails = Except.ok (id, update)
      ∧ update.is_shared = true
      ∧ (∀ e ∈ template.shared_with.getD [], e ∈ update.shared_with)
      ∧ (∀ piece ∈ jsSplitComma emails, jsTrim piece ≠ "" →
          jsTrim piece ∈ update.shared_with)
      ∧ (∀ e ∈ update.shared_with, e ∉ template.shared_with.getD [] →
          e ≠ "" ∧ (∃ piece ∈ jsSplitComma emails, e = jsTrim piece)
          ∧ ∃ c ∈ e.data, isJsWhitespace c = false)
      ∧ update.shared_with.Nodup := by
  refine ⟨{ is_shared := true,
            shared_with := setToArray (template.shared_with.getD [] ++ newEmails emails) },
    ?_, rfl, ?_, ?_, ?_, setToArray_nodup _⟩
  · simp only [shareTemplate, hfind]
  · intro e he
    simp only [mem_setToArray, List.mem_append]
    exact Or.inl he
  · intro piece hp hne
    simp only [mem_setToArray, List.mem_append]
    exact Or.inr ((mem_newEmails emails _).2 ⟨hne, piece, hp, rfl⟩)
  · intro e he hnot
    simp only [mem_setToArray, List.mem_append] at he
    rcases he with he | he
    · exact absurd he hnot
    · obtain ⟨hne, piece, hp, rfl⟩ := (mem_newEmails emails e).1 he
      exact ⟨hne, ⟨piece, hp, rfl⟩, jsTrim_visible piece hne⟩

/-- Witness of C30: the template shared with `a@x.org` receives an input that
repeats that address, names `b@x.org` twice with blanks around it, and has an
empty and a blank piece; the stored list is the two addresses. -/
theorem C30_share_merges_recipients_witness :
    [exampleTemplate].find? (fun t => decide (t.id = "t1")) = some exampleTemplate
    ∧ shareTemplate [exampleTemplate] "t1" "a@x.org, b@x.org ,, ,b@x.org"
        = Except.ok ("t1", { is_shared := true, shared_with := ["a@x.org", "b@x.org"] })
    ∧ ∃ update : TemplateUpdate,
      shareTemplate [exampleTemplate] "t1" "a@x.org, b@x.org ,, ,b@x.org"
        = Except.ok ("t1", update)
      ∧ update.is_shared = true
      ∧ (∀ e ∈ exampleTemplate.shared_with.getD [], e ∈ update.shared_with)
      ∧ (∀ piece ∈ jsSplitComma "a@x.org, b@x.org ,, ,b@x.org", jsTrim piece ≠ "" →
          jsTrim piece ∈ update.shared_with)
      ∧ (∀ e ∈ update.shared_with, e ∉ exampleTemplate.shared_with.getD [] →
          e ≠ "" ∧ (∃ piece ∈ jsSplitComma "a@x.org, b@x.org ,, ,b@x.org", e = jsTrim piece)
          ∧ ∃ c ∈ e.data, isJsWhitespace c = false)
      ∧ update.shared_with.Nodup :=
  ⟨rfl, rfl,
    C30_share_merges_recipients [exampleTemplate] exampleTemplate "t1"
      "a@x.org, b@x.org ,, ,b@x.org" rfl⟩

end DataMind
